import Mathlib

set_option maxRecDepth 100000

/-!
# Verification of the multi-agent documentation pipeline

A shallow embedding of `backend/services/multi_agent_documentation_service.py`
(Documentation-Viewer-Portal).  Python strings are modelled as `List Char`
(`Lc`); the helpers `py*` below reproduce the exact semantics of the Python
`str` operations the service uses (for ASCII text, which is all the service
itself produces; file contents flow through the helpers unchanged).
Effectful inputs are explicit parameters: the wall-clock reading used by
`datetime.now().strftime(...)` is a string parameter `now`, the OpenAI chat
backend is a function parameter, and `hashlib.md5(...).hexdigest()` is an
arbitrary function parameter `md5` (its only property used by the code is
that it is a function of the normalized content).
-/

namespace DocPortal

/-- Python strings are modelled as lists of characters. -/
abbrev Lc := List Char

/-- String literal to character list. -/
def S (s : String) : Lc := s.data

/-- The six ASCII whitespace characters recognised by Python's `str.strip`,
`str.split()` and `\s` in `re` (the service only handles ASCII text). -/
def isPySpace (c : Char) : Bool :=
  c = ' ' || c = '\t' || c = '\n' || c = '\r' || c = '\x0b' || c = '\x0c'

/-- Python `str.lstrip()` (no argument: strip whitespace on the left). -/
def pyLStrip (l : Lc) : Lc := l.dropWhile isPySpace

/-- Python `str.rstrip()`. -/
def pyRStrip (l : Lc) : Lc := (l.reverse.dropWhile isPySpace).reverse

/-- Python `str.strip()`. -/
def pyStrip (l : Lc) : Lc := pyRStrip (pyLStrip l)

/-- Python `str.lstrip(chars)`: drop leading characters from the set `cs`. -/
def pyLStripSet (cs : Lc) (l : Lc) : Lc := l.dropWhile (fun c => c ∈ cs)

/-- Python `str.lower()` (ASCII). -/
def pyLower (l : Lc) : Lc := l.map Char.toLower

/-- Python `str.upper()` (ASCII). -/
def pyUpper (l : Lc) : Lc := l.map Char.toUpper

/-- Python `str.startswith(pre)`. -/
def pyStartsWith (l pre : Lc) : Bool := pre.isPrefixOf l

/-- Python `str.endswith(suf)`. -/
def pyEndsWith (l suf : Lc) : Bool := suf.isSuffixOf l

/-- Python `sub in s` (substring containment). -/
def pyContains (sub : Lc) : Lc → Bool
  | [] => sub.isPrefixOf []
  | c :: rest => sub.isPrefixOf (c :: rest) || pyContains sub rest

/-- Accumulator pass of `str.split()` (split on whitespace runs, dropping
empty pieces). -/
def pySplitAux : Lc → Lc → List Lc
  | [], acc => if acc.isEmpty then [] else [acc.reverse]
  | c :: rest, acc =>
    if isPySpace c then
      if acc.isEmpty then pySplitAux rest [] else acc.reverse :: pySplitAux rest []
    else pySplitAux rest (c :: acc)

/-- Python `str.split()` with no separator argument. -/
def pySplit (l : Lc) : List Lc := pySplitAux l []

/-- Accumulator pass of `str.split('\n')` (keeps empty pieces). -/
def pySplitNlAux : Lc → Lc → List Lc
  | [], acc => [acc.reverse]
  | c :: rest, acc =>
    if c = '\n' then acc.reverse :: pySplitNlAux rest [] else pySplitNlAux rest (c :: acc)

/-- Python `str.split('\n')`. -/
def pySplitNl (l : Lc) : List Lc := pySplitNlAux l []

/-- Accumulator pass of `str.splitlines()`: like `split('\n')` but a trailing
newline produces no final empty line (the service's text uses `'\n'` line
endings only). -/
def pySplitLinesAux : Lc → Lc → List Lc
  | [], acc => if acc.isEmpty then [] else [acc.reverse]
  | c :: rest, acc =>
    if c = '\n' then acc.reverse :: pySplitLinesAux rest [] else pySplitLinesAux rest (c :: acc)

/-- Python `str.splitlines()`. -/
def pySplitLines (l : Lc) : List Lc := pySplitLinesAux l []

/-- Python `sep.join(parts)`. -/
def pyJoin (sep : Lc) : List Lc → Lc
  | [] => []
  | [x] => x
  | x :: y :: rest => x ++ sep ++ pyJoin sep (y :: rest)

/-- Fuel-driven worker for `str.count` (the fuel is an upper bound on the
number of characters still to scan, so it never runs out in `pyCount`).
Counts non-overlapping occurrences scanning left to right, exactly like
Python's `str.count` for a non-empty pattern (the service never counts the
empty pattern). -/
def pyCountAux (sub : Lc) : Nat → Lc → Nat
  | 0, _ => 0
  | _ + 1, [] => 0
  | fuel + 1, c :: rest =>
    if sub.isPrefixOf (c :: rest) then
      1 + pyCountAux sub fuel ((c :: rest).drop (max 1 sub.length))
    else
      pyCountAux sub fuel rest

/-- Python `s.count(sub)` for non-empty `sub`. -/
def pyCount (sub l : Lc) : Nat := pyCountAux sub l.length l

/-- Fuel-driven worker for `str.replace`; same fuel convention as
`pyCountAux`.  Replaces non-overlapping occurrences left to right, exactly
like Python's `str.replace` for a non-empty pattern (the service never
replaces the empty pattern). -/
def pyReplaceAux (old new : Lc) : Nat → Lc → Lc
  | 0, l => l
  | _ + 1, [] => []
  | fuel + 1, c :: rest =>
    if old.isPrefixOf (c :: rest) && !old.isEmpty then
      new ++ pyReplaceAux old new fuel ((c :: rest).drop (max 1 old.length))
    else
      c :: pyReplaceAux old new fuel rest

/-- Python `s.replace(old, new)` for non-empty `old`. -/
def pyReplace (old new l : Lc) : Lc := pyReplaceAux old new l.length l

/-- Python `s.take`-style slice `s[:n]`. -/
def pySlice (n : Nat) (l : Lc) : Lc := l.take n

/-- `str(n)` for a Python non-negative integer. -/
def natStr (n : Nat) : Lc := (toString n).data

/-- Python `list.insert(i, a)`: clamps the index into range (an index past
the end appends). -/
def pyInsert (i : Nat) (a : α) (l : List α) : List α := l.take i ++ [a] ++ l.drop i

/-- Distinct elements of a list (Python `set(...)` is used by the service
only through its cardinality and membership, which this preserves). -/
def pyDistinct : List Lc → List Lc
  | [] => []
  | w :: rest => if w ∈ rest then pyDistinct rest else w :: pyDistinct rest

/-! ## Markdown cleanup used by `_try_add_tab`

`_try_add_tab` runs two `re.sub` passes and a bullet filter over the
candidate content before hashing it.  The scanners below reproduce the
Python `re` semantics of the two patterns on ASCII text:

* Step 1, pattern `(three backticks)[\w-]*\s*\n\s*(three backticks)`:
  since `\s*\n\s*` can only consume whitespace and the closing fence is not
  whitespace, the pattern matches an opening fence, a maximal run of
  word/hyphen characters, then a maximal whitespace run that contains a
  newline, then immediately a closing fence.
* Step 2, pattern `(three backticks)(\w+)?\s*\n([\s\S]*?)\n\s*(three
  backticks)`: the greedy `\s*\n` consumes through a newline of the
  whitespace run following the language id, preferring the last newline and
  backtracking to earlier ones; the non-greedy body then ends at the first
  later newline from which skipping the maximal whitespace run lands on a
  closing fence.  `re.sub` resumes scanning after each match.
-/

/-- Python's `\w` on ASCII text. -/
def isWordChar (c : Char) : Bool := c.isAlphanum || c = '_'

/-- Python's `[\w-]` on ASCII text. -/
def isWordOrHyphen (c : Char) : Bool := isWordChar c || c = '-'

/-- A fence: three backticks. -/
def ticks : Lc := S "```"

/-- Step 1 of the cleanup: delete empty fenced code blocks
(`re.sub(r"(ticks)[\w-]*\s*\n\s*(ticks)", "", content)`); fuel bounds the
characters left to scan. -/
def removeEmptyFencesAux : Nat → Lc → Lc
  | 0, l => l
  | _ + 1, [] => []
  | fuel + 1, c :: rest =>
    if ticks.isPrefixOf (c :: rest) then
      let afterLang := ((c :: rest).drop 3).dropWhile isWordOrHyphen
      let ws := afterLang.takeWhile isPySpace
      let afterWs := afterLang.dropWhile isPySpace
      if ws.contains '\n' && ticks.isPrefixOf afterWs then
        removeEmptyFencesAux fuel (afterWs.drop 3)
      else c :: removeEmptyFencesAux fuel rest
    else c :: removeEmptyFencesAux fuel rest

/-- Step 1 of the cleanup at the top level. -/
def removeEmptyFences (l : Lc) : Lc := removeEmptyFencesAux l.length l

/-- Find the end of a non-greedy fenced-block body: the first newline from
which skipping the maximal whitespace run lands on a closing fence.
Returns the body and the remainder after the closing fence. -/
def findFenceCloseAux : Nat → Lc → Lc → Option (Lc × Lc)
  | 0, _, _ => none
  | _ + 1, [], _ => none
  | fuel + 1, c :: rest, bodyRev =>
    if c = '\n' then
      let afterWs := rest.dropWhile isPySpace
      if ticks.isPrefixOf afterWs then some (bodyRev.reverse, afterWs.drop 3)
      else findFenceCloseAux fuel rest (c :: bodyRev)
    else findFenceCloseAux fuel rest (c :: bodyRev)

/-- Indices of newlines in a whitespace run, latest first (the order in
which the greedy `\s*\n` offers split points while backtracking). -/
def newlineIndicesRev (ws : Lc) : List Nat :=
  ((List.range ws.length).filter (fun i => ws.getD i ' ' = '\n')).reverse

/-- Try each split point for the greedy `\s*\n` (latest newline first),
looking for a closing fence; on success return
`(matched span, body group, remainder after the match)`. -/
def tryFenceStarts (l0 afterLang : Lc) : List Nat → Option (Lc × Lc × Lc)
  | [] => none
  | i :: more =>
    let bodyOn := afterLang.drop (i + 1)
    match findFenceCloseAux bodyOn.length bodyOn [] with
    | some (body, after) => some (l0.take (l0.length - after.length), body, after)
    | none => tryFenceStarts l0 afterLang more

/-- Try the step-2 pattern at a position known to start with a fence. -/
def tryFencePatternAt (l0 : Lc) : Option (Lc × Lc × Lc) :=
  let afterLang := (l0.drop 3).dropWhile isWordChar
  let ws := afterLang.takeWhile isPySpace
  tryFenceStarts l0 afterLang (newlineIndicesRev ws)

/-- `is_trivial_codeblock`: every non-blank stripped line of the block is an
import, a js/jsx/css file reference, or a comment. -/
def isTrivialCodeblock (block : Lc) : Bool :=
  let lines := ((pySplitLines block).map pyStrip).filter (fun l => !l.isEmpty)
  lines.isEmpty ||
    lines.all (fun l =>
      pyStartsWith l (S "import ") ||
      pyEndsWith l (S ".js") || pyEndsWith l (S ".jsx") || pyEndsWith l (S ".css") ||
      pyStartsWith l (S "//") ||
      pyStartsWith l (S "#") ||
      (pyStartsWith l (S "from ") && pyContains (S "import") l))

/-- Step 2 of the cleanup: drop fenced code blocks whose body is trivial,
keep the others verbatim (`re.sub` with `replace_trivial_codeblocks`);
fuel bounds the characters left to scan. -/
def removeTrivialFencesAux : Nat → Lc → Lc
  | 0, l => l
  | _ + 1, [] => []
  | fuel + 1, c :: rest =>
    if ticks.isPrefixOf (c :: rest) then
      match tryFencePatternAt (c :: rest) with
      | some (span, body, after) =>
        if isTrivialCodeblock body then removeTrivialFencesAux fuel after
        else span ++ removeTrivialFencesAux fuel after
      | none => c :: removeTrivialFencesAux fuel rest
    else c :: removeTrivialFencesAux fuel rest

/-- Step 2 of the cleanup at the top level. -/
def removeTrivialFences (l : Lc) : Lc := removeTrivialFencesAux l.length l

/-- Step 3 of the cleanup: drop lines that are empty bullet points
(a stripped line starting with `-` or `*` whose remainder after
`lstrip('-* ')` strips to nothing). -/
def removeEmptyBullets (l : Lc) : Lc :=
  pyJoin (S "\n")
    ((pySplitLines l).filter (fun ln =>
      let stripped := pyStrip ln
      !((pyStartsWith stripped (S "-") || pyStartsWith stripped (S "*")) &&
        (pyStrip (pyLStripSet (S "-* ") stripped)).isEmpty)))

/-- The full cleanup pipeline applied to a candidate tab's content before
hashing. -/
def cleanContent (l : Lc) : Lc :=
  removeEmptyBullets (removeTrivialFences (removeEmptyFences l))

/-! ## Data model -/

/-- One image extracted from a project file (`embedded_images` entry).
`placementDescription` is `img.get('placement', {}).get('description', ...)`:
`none` models a missing placement description. -/
structure ImageRef where
  name : Lc
  data : Lc
  context : Lc
  placementDescription : Option Lc
deriving DecidableEq

/-- One processed input file record.  A missing `embedded_images` key is
modelled by the empty list (the code only ever iterates over it). -/
structure FileRec where
  name : Lc
  size : Nat
  content : Lc
  embeddedImages : List ImageRef
deriving DecidableEq

/-- The `project_data` dict: `none` fields model missing keys, read through
`dict.get(key, default)`. -/
structure ProjectData where
  title : Option Lc
  description : Option Lc
  files : List FileRec
deriving DecidableEq

/-- One tab of the final documentation.  `section_number` is `none` when the
Python dict carries no `"section_number"` key (overview, fallback and
simulation tabs). -/
structure Tab where
  title : Lc
  content : Lc
  word_count : Nat
  agent : Lc
  section_number : Option Nat
deriving DecidableEq

/-- Return value of `_assemble_final_documentation`. -/
structure AssembleOut where
  content : Lc
  tabs : List Tab
deriving DecidableEq

/-- Return value of `generate_comprehensive_documentation` (the
`processing_time_ms` and `generated_at` fields are wall-clock readings and
are not modelled). -/
structure GenerationResult where
  content : Lc
  tabs : List Tab
  model : Lc
  tokens_used : Nat
  method : Lc
  agents_deployed : Nat
  sections_generated : Nat
deriving DecidableEq

/-- The canonical roster of the eight specialized agents, in the order the
`agent_configs` dict of `_initialize_agents` declares them. -/
def agentRosterNames : List Lc :=
  [S "Code Architecture Agent",
   S "System Architecture Agent",
   S "API Integration Agent",
   S "Security Implementation Agent",
   S "Deployment Operations Agent",
   S "Quality Assurance Agent",
   S "User Documentation Agent",
   S "Performance Optimization Agent"]

/-! ## `DocumentationAgent` -/

/-- `DocumentationAgent._passes_quality`. -/
def passesQuality (text : Lc) : Bool :=
  if text.isEmpty || (pyStrip text).isEmpty then false
  else
    let words := (pySplit (pyStrip text)).length
    let headingCount :=
      pyCount (S "\n#") text + pyCount (S "\n##") text +
      pyCount (S "\n###") text + pyCount (S "\n####") text
    let hasLists :=
      pyContains (S "- ") text || pyContains (S "* ") text ||
      [1, 2, 3, 4].any (fun i => pyContains (natStr i ++ S ".") text)
    decide (700 ≤ words) && decide (3 ≤ headingCount) && hasLists

/-- `DocumentationAgent._extract_embedded_images`. -/
def extractEmbeddedImages (p : ProjectData) : List ImageRef :=
  p.files.flatMap (fun f => f.embeddedImages)

/-- The `agent_keywords` table of `_add_images_to_content`
(`agent_keywords.get(self.name, [])`). -/
def agentKeywords (name : Lc) : List Lc :=
  if name = S "Code Architecture Agent" then
    [S "code", S "function", S "class", S "module", S "file"]
  else if name = S "System Architecture Agent" then
    [S "architecture", S "design", S "system", S "topology"]
  else if name = S "API Integration Agent" then
    [S "api", S "endpoint", S "request", S "response", S "interface"]
  else if name = S "Security Implementation Agent" then
    [S "security", S "auth", S "token", S "password", S "jwt", S "mfa"]
  else if name = S "Deployment Operations Agent" then
    [S "setup", S "installation", S "deploy", S "infrastructure", S "docker", S "kubernetes"]
  else if name = S "Quality Assurance Agent" then
    [S "test", S "testing", S "coverage", S "qa", S "assert"]
  else if name = S "User Documentation Agent" then
    [S "ui", S "user", S "interface", S "walkthrough", S "guide"]
  else if name = S "Performance Optimization Agent" then
    [S "performance", S "latency", S "throughput", S "metric", S "profiling"]
  else []

/-- The image filter of `_add_images_to_content`: iterate over the first two
embedded images and keep those whose lowercased `context + ' ' + name`
contains one of the agent's keywords (an empty keyword list keeps all). -/
def relevantImages (p : ProjectData) (agentName : Lc) : List ImageRef :=
  let keywords := agentKeywords agentName
  ((extractEmbeddedImages p).take 2).filter (fun img =>
    keywords.isEmpty ||
      keywords.any (fun k => pyContains k (pyLower (img.context ++ S " " ++ img.name))))

/-- The `## Visual Documentation` subsection built for the selected images. -/
def imageSectionFor (rel : List ImageRef) : Lc :=
  rel.foldl
    (fun acc img =>
      acc ++ S "![" ++ img.placementDescription.getD img.name ++
        S "](data:image/png;base64," ++ img.data ++ S ")\n\n")
    (S "\n\n## Visual Documentation\n\n")

/-- The insertion index of `_add_images_to_content`: one past the first line
starting with `##`, defaulting to 1. -/
def imageInsertIndex (lines : List Lc) : Nat :=
  match lines.findIdx? (fun ln => pyStartsWith ln (S "##")) with
  | some i => i + 1
  | none => 1

/-- `DocumentationAgent._add_images_to_content`. -/
def addImagesToContent (content : Lc) (p : ProjectData) (agentName : Lc) : Lc :=
  if (extractEmbeddedImages p).isEmpty then content
  else
    let rel := relevantImages p agentName
    if rel.isEmpty then content
    else
      let lines := pySplitNl content
      pyJoin (S "\n") (pyInsert (imageInsertIndex lines) (imageSectionFor rel) lines)

/-- The retry loop of `DocumentationAgent.analyze_project` when a backend
client is configured.  `backend i` is the (content, total_tokens) of the
`i`-th `chat.completions.create` call (the conversation history sent there
is fixed by `project_data` and the attempt number, so indexing calls by
attempt is faithful); the result carries the produced content, the tokens
used, and — for specification purposes — the number of backend calls made. -/
def analyzeAttempts (agentName : Lc) (backend : Nat → Lc × Nat) (p : ProjectData) :
    List Nat → Lc → Nat → Nat → Lc × Nat × Nat
  | [], best, tok, calls =>
    (if best.isEmpty then S "# Draft Incomplete\n\nNo content."
     else addImagesToContent best p agentName, tok, calls)
  | i :: rest, best, tok, calls =>
    let draft := pyStrip (backend i).1
    let tok := tok + (backend i).2
    let best := if best.length < draft.length then draft else best
    if passesQuality draft then (addImagesToContent draft p agentName, tok, calls + 1)
    else analyzeAttempts agentName backend p rest best tok (calls + 1)

/-- `DocumentationAgent.analyze_project` with a configured backend:
`for attempt in range(1, 4)` makes up to three calls. -/
def analyzeProject (agentName : Lc) (backend : Nat → Lc × Nat) (p : ProjectData) :
    Lc × Nat × Nat :=
  analyzeAttempts agentName backend p [1, 2, 3] [] 0 0

/-! ## `OrchestratorAgent._assemble_final_documentation` -/

/-- The fixed `section_order` list of `_assemble_final_documentation`. -/
def sectionOrder : List Lc :=
  [S "Code Architecture Agent",
   S "System Architecture Agent",
   S "API Integration Agent",
   S "Security Implementation Agent",
   S "Deployment Operations Agent",
   S "Quality Assurance Agent",
   S "User Documentation Agent",
   S "Performance Optimization Agent"]

/-- The failure-phrase markers checked by the validation filter. -/
def failurePhrases : List Lc :=
  [S "no content available", S "content not available", S "failed to generate",
   S "error occurred", S "please try again", S "analysis failed"]

/-- `len([w for w in content.split() if w.strip() and not w.startswith('#')])`:
the non-heading word count used both by the validation filter and for a
tab's `word_count`. -/
def nonHeadingWordCount (content : Lc) : Nat :=
  ((pySplit content).filter
    (fun w => !(pyStrip w).isEmpty && !pyStartsWith w (S "#"))).length

/-- `len([ln.strip() for ln in content.split('\n') if ln.strip() and not
ln.strip().startswith('#')])`. -/
def nonHeadingLineCount (content : Lc) : Nat :=
  ((pySplitNl content).filter
    (fun ln => !(pyStrip ln).isEmpty && !pyStartsWith (pyStrip ln) (S "#"))).length

/-- `content.replace('#','').replace('\n','').replace(' ','').replace('-','')
.replace('*','').replace('`','')` — flattening removes exactly these six
characters. -/
def flattenedLength (content : Lc) : Nat :=
  (content.filter (fun c =>
    !(c = '#' || c = '\n' || c = ' ' || c = '-' || c = '*' || c = '`'))).length

/-- The validation filter of `_assemble_final_documentation`, applied to a
raw agent result's content (`(result.get('content') or "").strip()` is the
`pyStrip` below). -/
def validContent (c0 : Lc) : Bool :=
  let content := pyStrip c0
  if content.isEmpty then false
  else if nonHeadingWordCount content < 100 then false
  else if nonHeadingLineCount content < 5 then false
  else if flattenedLength content < 100 then false
  else if failurePhrases.any (fun ph => pyContains ph (pyLower content)) then false
  else true

/-- The table-of-contents / overview text (`full_toc`).  `now` is the
`datetime.now().strftime('%Y-%m-%d %H:%M:%S')` reading made explicit. -/
def buildFullToc (validResults : List (Lc × Lc)) (p : ProjectData) (now : Lc) : Lc :=
  let numbered :=
    (sectionOrder.filter (fun n => (validResults.find? (fun e => e.1 = n)).isSome))
  let numberedLines :=
    (List.range numbered.length).zipWith
      (fun i n => natStr (i + 1) ++ S ". " ++ pyReplace (S " Agent") (S " Analysis") n)
      numbered
  pyJoin (S "\n")
    ([S "# Comprehensive Technical Documentation\n",
      S "**Project**: " ++ p.title.getD (S "Unknown Project"),
      S "**Generated**: " ++ now,
      S "**Analysis Method**: Multi-Agent Parallel Processing",
      S "**Agents Deployed**: " ++ natStr validResults.length,
      S "\n**Files Analyzed**: " ++ natStr p.files.length ++ S " files\n",
      S "## Documentation Sections\n"] ++ numberedLines)

/-- Title normalization of `_try_add_tab`: lowercase, delete the listed
suffix words, collapse whitespace. -/
def normalizeTitle (title : Lc) : Lc :=
  let base :=
    [S "analysis", S "documentation", S "implementation",
     S "operations", S "assurance", S "optimization"].foldl
      (fun b tok => pyReplace tok [] b) (pyLower title)
  pyStrip (pyJoin (S " ") (pySplit base))

/-- Content normalization of `_try_add_tab` before hashing: cleanup, then
lowercase with collapsed whitespace. -/
def normalizeContent (content : Lc) : Lc :=
  pyJoin (S " ") (pySplit (pyLower (cleanContent content)))

/-- `set(content.lower().split())` — the distinct lowercased words of a
content. -/
def wordSet (content : Lc) : List Lc := pyDistinct (pySplit (pyLower content))

/-- `len(ew.intersection(cw))`. -/
def wordOverlapCommon (existingContent candidateContent : Lc) : Nat :=
  ((wordSet existingContent).filter (fun w => w ∈ wordSet candidateContent)).length

/-- `max(len(ew), len(cw))`. -/
def wordSetMax (existingContent candidateContent : Lc) : Nat :=
  max (wordSet existingContent).length (wordSet candidateContent).length

/-- The word-overlap test of `_try_add_tab`: with `ew`/`cw` the distinct
lowercased word sets of the existing and candidate contents, Python
computes `common / max(len(ew), len(cw)) > 0.65` in floating point; for
word counts below `10^15` that float comparison agrees exactly with the
rational one, i.e. with `65 * max < 100 * common` (the two sides would have
to be within `2^-52` of each other to disagree, impossible for such small
fractions unless equal, and equality is not `>`). -/
def similarityExceeds (existingContent candidateContent : Lc) : Bool :=
  !(wordSet existingContent).isEmpty && !(wordSet candidateContent).isEmpty &&
    decide (65 * wordSetMax existingContent candidateContent <
            100 * wordOverlapCommon existingContent candidateContent)

/-- The mutable state threaded through `_try_add_tab`: `tabs` and
`created_tabs` in the source are appended in lockstep and always equal, so
one list represents both. -/
structure AsmState where
  tabs : List Tab
  fullParts : List Lc
  seenHashes : List Lc
  seenTitles : List Lc
  sectionCount : Nat
deriving DecidableEq

/-- The tab record `_try_add_tab` appends on acceptance. -/
def mkTab (title content agentName : Lc) (n : Nat) : Tab :=
  { title := title, content := content,
    word_count := nonHeadingWordCount content,
    agent := agentName, section_number := some n }

/-- `_try_add_tab`: title dedup, content cleanup + hash dedup, word-overlap
dedup, then acceptance with the next section number.  `md5` is the
`hashlib.md5(...).hexdigest()` function made an explicit parameter. -/
def tryAddTab (md5 : Lc → Lc) (st : AsmState) (title content agentName : Lc) :
    Bool × AsmState :=
  let base := normalizeTitle title
  if base ∈ st.seenTitles then (false, st)
  else
    let h := md5 (normalizeContent content)
    if h ∈ st.seenHashes then (false, st)
    else if st.tabs.any (fun e => similarityExceeds e.content content) then (false, st)
    else
      (true,
       { tabs := st.tabs ++ [mkTab title content agentName st.sectionCount],
         fullParts := st.fullParts ++
           [S "# " ++ natStr st.sectionCount ++ S ". " ++ title ++ S "\n", content,
            S "\n\n---\n"],
         seenHashes := st.seenHashes ++ [h],
         seenTitles := st.seenTitles ++ [base],
         sectionCount := st.sectionCount + 1 })

/-- The `(title, stripped content, agent name)` triples on which
`_assemble_final_documentation` invokes `_try_add_tab`, in order: the
`section_order` agents present among the valid results first, then any
other valid agents in encounter order (skipping empty stripped content, as
the second loop does). -/
def orderedCandidates (validResults : List (Lc × Lc)) : List (Lc × Lc × Lc) :=
  (sectionOrder.filterMap (fun name =>
    (validResults.find? (fun e => e.1 = name)).map (fun e =>
      (pyReplace (S " Agent") (S " Analysis") name, pyStrip e.2, name)))) ++
  ((validResults.filter (fun e => !sectionOrder.contains e.1)).filterMap (fun e =>
    let content := pyStrip e.2
    if content.isEmpty then none
    else some (pyReplace (S " Agent") [] e.1, content, e.1)))

/-- Run `_try_add_tab` over the candidate sequence (the loops discard its
boolean result). -/
def addTabsFold (md5 : Lc → Lc) (st : AsmState) : List (Lc × Lc × Lc) → AsmState
  | [] => st
  | (t, c, a) :: rest => addTabsFold md5 (tryAddTab md5 st t c a).2 rest

/-- The prepended `Documentation Overview` tab (its dict has no
`section_number` key). -/
def overviewTab (fullToc : Lc) : Tab :=
  { title := S "Documentation Overview", content := fullToc,
    word_count := (pySplit fullToc).length, agent := S "Orchestrator",
    section_number := none }

/-! ## `_create_fallback_documentation` -/

/-- Accumulator pass of Python `name.split('.')` (keeps empty pieces). -/
def pySplitOnDotAux : Lc → Lc → List Lc
  | [], acc => [acc.reverse]
  | c :: rest, acc =>
    if c = '.' then acc.reverse :: pySplitOnDotAux rest [] else pySplitOnDotAux rest (c :: acc)

/-- Python `name.split('.')`. -/
def pySplitOnDot (l : Lc) : List Lc := pySplitOnDotAux l []

/-- `name.split('.')[-1].lower() if '.' in name else 'other'`. -/
def extOf (name : Lc) : Lc :=
  if name.contains '.' then pyLower ((pySplitOnDot name).getLastD [])
  else S "other"

/-- Group file names by extension in first-encounter order, appending names
within a group (the `file_types` dict of `_create_fallback_documentation`). -/
def groupFilesByExt (files : List FileRec) : List (Lc × List Lc) :=
  files.foldl
    (fun acc f =>
      let ext := extOf f.name
      if (acc.find? (fun g => g.1 = ext)).isSome then
        acc.map (fun g => if g.1 = ext then (g.1, g.2 ++ [f.name]) else g)
      else acc ++ [(ext, [f.name])])
    []

/-- The per-extension block appended for one file group. -/
def fallbackGroupBlock (g : Lc × List Lc) : Lc :=
  S "### " ++ pyUpper g.1 ++ S " Files (" ++ natStr g.2.length ++ S ")\n" ++
  ((g.2.take 10).foldl (fun acc n => acc ++ S "- `" ++ n ++ S "`\n") []) ++
  (if 10 < g.2.length then S "- ... and " ++ natStr (g.2.length - 10) ++ S " more files\n"
   else []) ++
  S "\n"

/-- `OrchestratorAgent._create_fallback_documentation` (the triple-quoted
source strings carry the 4-space indentation of the method body, reproduced
verbatim here). -/
def createFallbackDocumentation (p : ProjectData) : Lc :=
  let head :=
    S "# " ++ p.title.getD (S "Project") ++ S " Documentation\n\n    ## Project Overview\n    This documentation was generated for **" ++
    p.title.getD (S "your project") ++ S "**.\n\n    **Description**: " ++
    p.description.getD (S "No description provided") ++
    S "\n\n    ## Project Structure\n    The project contains **" ++
    natStr p.files.length ++ S " files** that were analyzed:\n\n    "
  let groups := (groupFilesByExt p.files).foldl (fun acc g => acc ++ fallbackGroupBlock g) []
  head ++ groups ++
    S "## Getting Started\n    To work with this project:\n\n    1. Review the project structure above\n    2. Check for README or setup files\n    3. Install required dependencies\n    4. Follow any setup instructions provided\n\n    ## Next Steps\n    This is a basic analysis of your project structure. For more detailed documentation:\n\n    - Ensure all project files are uploaded\n    - Check that files contain actual code content\n    - Verify network connectivity for AI analysis\n    - Contact support if issues persist\n\n    ---\n    *Generated by Mashreq Documentation System*\n    "

/-- `OrchestratorAgent._assemble_final_documentation`.  `results` is the
`enhanced_results` dict as an insertion-ordered association list of
`(agent name, content)`; the `tokens`/`agent` values of its entries are not
read by this method. -/
def assembleFinalDocumentation (md5 : Lc → Lc) (results : List (Lc × Lc))
    (p : ProjectData) (now : Lc) : AssembleOut :=
  let validResults := results.filter (fun e => validContent e.2)
  if validResults.isEmpty then
    let fallback := createFallbackDocumentation p
    { content := fallback,
      tabs := [{ title := S "Project Overview", content := fallback,
                 word_count := (pySplit fallback).length, agent := S "Fallback",
                 section_number := none }] }
  else
    let fullToc := buildFullToc validResults p now
    let st0 : AsmState :=
      { tabs := [], fullParts := [fullToc ++ S "\n\n---\n"],
        seenHashes := [], seenTitles := [], sectionCount := 1 }
    let st := addTabsFold md5 st0 (orderedCandidates validResults)
    let tabs0 :=
      if st.tabs.isEmpty then
        [{ title := S "Project Analysis", content := createFallbackDocumentation p,
           word_count := (pySplit (createFallbackDocumentation p)).length,
           agent := S "Fallback", section_number := none }]
      else st.tabs
    let fullParts := if st.tabs.isEmpty then [createFallbackDocumentation p] else st.fullParts
    let tabs := if 1 < tabs0.length then overviewTab fullToc :: tabs0 else tabs0
    { content := pyJoin (S "\n") fullParts, tabs := tabs }

/-! ## Cross-references and the orchestrator -/

/-- The failure placeholder `_run_agents_parallel` records when an agent's
future raises (`e` is `str(exception)`). -/
def failurePlaceholder (agentName e : Lc) : Lc :=
  S "# " ++ agentName ++ S " Analysis\n\n*Analysis failed: " ++ e ++ S "*"

/-- `_run_agents_parallel`: each agent either completed with
`(content, tokens)` or raised; `outcomes` lists the collected futures in
completion order, and a raised future becomes the failure placeholder with
zero tokens. -/
def runAgentsParallel (outcomes : List (Lc × Except Lc (Lc × Nat))) :
    List (Lc × Lc × Nat) :=
  outcomes.map (fun o =>
    match o.2 with
    | .ok r => (o.1, r.1, r.2)
    | .error e => (o.1, failurePlaceholder o.1 e, 0))

/-- The agent-specific first block of `_add_cross_references`. -/
def crossRefsPart1 (agentName : Lc) : List Lc :=
  if pyContains (S "Code Architecture") agentName then
    [S "\n## Integration Notes\n",
     S "- **Architecture Impact**: See Architecture Agent analysis for system-level design implications",
     S "- **API Integration**: Refer to API Documentation Agent for endpoint implementations",
     S "- **Security Considerations**: Cross-reference Security Agent for authentication and authorization details"]
  else if pyContains (S "System Architecture") agentName then
    [S "\n## Implementation References\n",
     S "- **Code Implementation**: See Code Analysis Agent for detailed function-level implementation",
     S "- **Deployment Architecture**: Refer to Setup & Deployment Agent for infrastructure considerations",
     S "- **Performance Impact**: Cross-reference Performance Agent for scalability implications"]
  else if pyContains (S "API Integration") agentName then
    [S "\n## Related Documentation\n",
     S "- **Security Implementation**: See Security Agent for authentication and authorization details",
     S "- **Code Implementation**: Refer to Code Analysis Agent for endpoint implementation details",
     S "- **Testing Procedures**: Cross-reference Testing Agent for API testing strategies"]
  else []

/-- The always-appended `Project Context` block of `_add_cross_references`. -/
def projectContextRefs (p : ProjectData) : List Lc :=
  [S "\n## Project Context\n",
   S "- **Total Files Analyzed**: " ++ natStr p.files.length ++ S " files across the project",
   S "- **Project Scope**: " ++ p.title.getD (S "Unknown Project"),
   S "- **Multi-Agent Analysis**: This analysis is part of a comprehensive 8-agent documentation system"]

/-- `_add_cross_references` (its `context_summary` argument is never read by
the method body, so it is omitted here). -/
def addCrossReferences (content agentName : Lc) (p : ProjectData) : Lc :=
  content ++ pyJoin (S "\n") (crossRefsPart1 agentName ++ projectContextRefs p)

/-- `_enhance_cross_references` (the `context_summary` previews it builds are
passed to `_add_cross_references` but never read there). -/
def enhanceCrossReferences (results : List (Lc × Lc × Nat)) (p : ProjectData) :
    List (Lc × Lc × Nat) :=
  results.map (fun r => (r.1, addCrossReferences r.2.1 r.1 p, r.2.2))

/-! ## `_simulate_comprehensive_generation` -/

/-- The fixed `agent_sections` list of the simulation path. -/
def agentSections : List (Lc × Lc) :=
  [(S "Code Architecture Analysis", S "Comprehensive code structure and logic analysis"),
   (S "System Architecture Analysis", S "System design patterns and component relationships"),
   (S "API Integration Documentation", S "Complete endpoint specifications and integration guides"),
   (S "Security Implementation Analysis", S "Authentication flows and security implementations"),
   (S "Deployment Operations Guide", S "Installation procedures and infrastructure requirements"),
   (S "Quality Assurance Strategy", S "Testing strategies and quality assurance processes"),
   (S "User Documentation Guide", S "User workflows and onboarding procedures"),
   (S "Performance Optimization Analysis", S "Optimization strategies and operational procedures")]

/-- The simulated content template for one section (verbatim from the
source, including the two trailing spaces after "interactions"). -/
def simulatedSectionContent (sectionTitle description projTitle : Lc) (fileCount : Nat) : Lc :=
  S "# " ++ sectionTitle ++ S "\n\n## Overview\n" ++ description ++
  S "\n\n## Detailed Analysis\n*[This section would contain comprehensive " ++
  pyLower sectionTitle ++ S " for " ++ projTitle ++
  S "]*\n\n### Key Components Identified\n- Component analysis based on " ++
  natStr fileCount ++
  S " project files\n- Integration patterns and architectural decisions\n- Implementation details and best practices\n- Performance implications and optimization opportunities\n\n### Technical Implementation\nThe " ++
  pyLower sectionTitle ++
  S " reveals several important aspects:\n\n1. **Primary Architecture**: Modern, scalable design patterns\n2. **Technology Integration**: Well-structured component interactions  \n3. **Code Organization**: Clear separation of concerns\n4. **Quality Standards**: Enterprise-level implementation practices\n\n### Recommendations\n- Continue following established architectural patterns\n- Implement comprehensive monitoring and logging\n- Regular security audits and performance optimization\n- Maintain documentation as system evolves\n\n### Cross-Agent Integration\nThis analysis integrates with insights from other specialized agents to provide a holistic view of the system architecture and implementation.\n\n*Note: This is simulated content. The actual multi-agent system would provide detailed, code-specific analysis based on comprehensive examination of all project files.*\n"

/-- `OrchestratorAgent._simulate_comprehensive_generation`.  The Python loop
builds `tabs` and `full_content_parts` together; here the two are built by
the same traversal of `agent_sections` (same order, same elements).  The
`time.sleep` and the `processing_time_ms`/`generated_at` clock readings are
not modelled. -/
def simulateComprehensiveGeneration (p : ProjectData) (now : Lc) : GenerationResult :=
  let fileCount := p.files.length
  let projTitle := p.title.getD (S "Unknown Project")
  let header : List Lc :=
    [S "# Comprehensive Technical Documentation\n",
     S "**Project**: " ++ projTitle ++ S "\n",
     S "**Generated**: " ++ now ++ S "\n",
     S "**Analysis Method**: Multi-Agent Simulation\n",
     S "**Files Analyzed**: " ++ natStr fileCount ++ S " files\n\n",
     S "## Multi-Agent Analysis Overview\n",
     S "This documentation was generated using 8 specialized AI agents working in parallel:\n\n"]
  let sectionTabs : List Tab :=
    agentSections.map (fun sec =>
      let content := simulatedSectionContent sec.1 sec.2 projTitle fileCount
      { title := sec.1, content := content, word_count := (pySplit content).length,
        agent := sec.1 ++ S " Agent", section_number := none })
  let parts : List Lc :=
    header ++
      ((List.range agentSections.length).zip agentSections).flatMap (fun e =>
        [natStr (e.1 + 1) ++ S ". " ++ e.2.1,
         simulatedSectionContent e.2.1 e.2.2 projTitle fileCount,
         S "\n---\n"])
  let overviewContent := pyJoin (S "\n") (parts.take 8)
  let tabs : List Tab :=
    { title := S "Documentation Overview", content := overviewContent,
      word_count := (pySplit overviewContent).length, agent := S "Orchestrator",
      section_number := none } :: sectionTabs
  let fullContent := pyJoin (S "\n") parts
  { content := fullContent, tabs := tabs,
    model := S "multi-agent-simulation",
    tokens_used := fullContent.length / 4,
    method := S "multi-agent-simulation",
    agents_deployed := agentSections.length,
    sections_generated := tabs.length }

/-! ## `generate_comprehensive_documentation` -/

/-- `OrchestratorAgent.generate_comprehensive_documentation`.
`hasClient` models `self.client` being configured; `outcomes` lists, in
completion order, what each agent's `analyze_project` future delivered
(`.ok (content, tokens)`) or raised (`.error message`), which is everything
the parallel phase contributes.  The top-level `try`/`except` has nothing
to catch in this embedding — every phase is a total function — so the
exceptional degradation to simulation does not appear as a branch. -/
def generateComprehensiveDocumentation (md5 : Lc → Lc) (hasClient : Bool)
    (outcomes : List (Lc × Except Lc (Lc × Nat))) (p : ProjectData) (now : Lc) :
    GenerationResult :=
  if !hasClient then simulateComprehensiveGeneration p now
  else
    let agentResults := runAgentsParallel outcomes
    if agentResults.isEmpty || agentResults.all (fun r => (pyStrip r.2.1).isEmpty) then
      simulateComprehensiveGeneration p now
    else
      let enhanced := enhanceCrossReferences agentResults p
      let final := assembleFinalDocumentation md5 (enhanced.map (fun r => (r.1, r.2.1))) p now
      let totalTok := agentResults.foldl (fun a r => a + r.2.2) 0
      if final.tabs.isEmpty then
        let fb := createFallbackDocumentation p
        { content := fb,
          tabs := [{ title := S "Project Documentation", content := fb,
                     word_count := (pySplit fb).length, agent := S "Fallback",
                     section_number := none }],
          model := S "gpt-4-turbo-multi-agent", tokens_used := totalTok,
          method := S "multi-agent-parallel",
          agents_deployed := agentRosterNames.length, sections_generated := 1 }
      else
        { content := final.content, tabs := final.tabs,
          model := S "gpt-4-turbo-multi-agent", tokens_used := totalTok,
          method := S "multi-agent-parallel",
          agents_deployed := agentRosterNames.length,
          sections_generated := final.tabs.length }

/-! ## Generic helper lemmas -/

theorem pyJoin_cons_ne_nil (sep x : Lc) (xs : List Lc) (hx : x ≠ []) :
    pyJoin sep (x :: xs) ≠ [] := by
  cases xs with
  | nil => simpa [pyJoin] using hx
  | cons y ys =>
    simp only [pyJoin]
    exact fun h => hx (List.append_eq_nil.mp ((List.append_eq_nil.mp h).1)).1

theorem append_ne_nil_left {x y : Lc} (hx : x ≠ []) : x ++ y ≠ [] := by
  intro h
  exact hx (List.append_eq_nil.mp h).1

/-- A string starting with a character is non-empty. -/
theorem cons_append_ne_nil (c : Char) (x y : Lc) : (c :: x) ++ y ≠ [] := by
  simp

/-! ## Test fixtures shared by the concrete evaluations below -/

/-- Hash function used to instantiate the `md5` parameter in concrete runs:
any function works for the dedup logic, and the document text never
contains hash values, so the identity exhibits the same behaviour as the
real `hashlib.md5(...).hexdigest()` whenever the hashed inputs are
distinct. -/
def md5Id : Lc → Lc := id

/-- An empty project. -/
def emptyProject : ProjectData := ⟨none, none, []⟩

/-! ## C5: the `_passes_quality` boundary -/

/-- The claim's notion of a markdown heading, following the spec's words:
a line that starts with `#`. -/
def specMarkdownHeadingLineCount (t : Lc) : Nat :=
  ((pySplitNl t).filter (fun ln => pyStartsWith ln (S "#"))).length

/-- The claim's notion of containing a bullet list item, following the
spec's words: some line whose stripped form starts with `- `. -/
def specHasListItem (t : Lc) : Bool :=
  (pySplitNl t).any (fun ln => pyStartsWith (pyStrip ln) (S "- "))

/-- A draft with 700 words, whose three markdown headings are the first
three lines — the first heading sits at the very start of the text. -/
def c5BadDraft : Lc :=
  S "# A\n# B\n# C\n- l\n" ++ pyJoin (S " ") (List.replicate 692 (S "w"))

/-- A draft with 700 words whose three markdown headings each follow a
newline, plus one bullet item. -/
def c5GoodDraft : Lc :=
  S "x\n# A\n# B\n# C\n- l\n" ++ pyJoin (S " ") (List.replicate 691 (S "w"))

/-- The 699-word variant of `c5GoodDraft`. -/
def c5Draft699 : Lc :=
  S "x\n# A\n# B\n# C\n- l\n" ++ pyJoin (S " ") (List.replicate 690 (S "w"))

/-- C5 (counterexample): a draft with exactly 700 words, 3 markdown
headings and one list item for which `_passes_quality` nevertheless returns
`False`: the heading counter counts `#` only when preceded by a newline, so
the heading on the first line of the draft is not counted and only 2 of the
3 headings register. -/
theorem c5_counterexample :
    (pySplit (pyStrip c5BadDraft)).length = 700 ∧
    specMarkdownHeadingLineCount c5BadDraft = 3 ∧
    specHasListItem c5BadDraft = true ∧
    passesQuality c5BadDraft = false := by
  refine ⟨by decide, by decide, by decide, by decide⟩

/-- C5 (amended): any draft with exactly 699 words fails `_passes_quality`
regardless of headings and lists, and a draft with 700 words, one list
item, and 3 markdown headings each preceded by a newline passes; a heading
at the very start of the text is not counted by the heading counter. -/
theorem c5_passes_quality_boundary :
    (∀ t : Lc, (pySplit (pyStrip t)).length = 699 → passesQuality t = false) ∧
    passesQuality c5GoodDraft = true := by
  constructor
  · intro t h
    unfold passesQuality
    split
    · rfl
    · rw [h]
      rfl
  · decide

/-- Witness for `c5_passes_quality_boundary` at a concrete 699-word
draft. -/
theorem c5_passes_quality_boundary_witness :
    passesQuality c5Draft699 = false ∧ passesQuality c5GoodDraft = true :=
  ⟨c5_passes_quality_boundary.1 c5Draft699 (by decide),
   c5_passes_quality_boundary.2⟩

/-! ## C6: the retry cap of `analyze_project` -/

/-- C6: if every backend call returns the empty string, `analyze_project`
makes exactly 3 backend calls in total and returns non-empty content (the
`# Draft Incomplete` fallback). -/
theorem c6_retry_cap (agentName : Lc) (backend : Nat → Lc × Nat) (p : ProjectData)
    (h : ∀ i, (backend i).1 = []) :
    (analyzeProject agentName backend p).2.2 = 3 ∧
    (analyzeProject agentName backend p).1 ≠ [] := by
  have hq : passesQuality (pyStrip []) = false := by decide
  simp only [analyzeProject, analyzeAttempts, h 1, h 2, h 3, hq]
  refine ⟨rfl, by simp [pyStrip, pyLStrip, pyRStrip, S]⟩

/-- Witness for `c6_retry_cap`: a backend that always returns the empty
string with zero tokens. -/
theorem c6_retry_cap_witness :
    (analyzeProject (S "Code Architecture Agent") (fun _ => ([], 0)) emptyProject).2.2 = 3 ∧
    (analyzeProject (S "Code Architecture Agent") (fun _ => ([], 0)) emptyProject).1 ≠ [] :=
  c6_retry_cap (S "Code Architecture Agent") (fun _ => ([], 0)) emptyProject (fun _ => rfl)

/-! ## C8: the no-backend short-circuit -/

/-- C8: with no backend client configured, the orchestrator skips the
parallel phase and returns the simulation result: its `method` tag is
`multi-agent-simulation` and it has one more tab than the canonical
eight-agent roster (nine in total). -/
theorem c8_no_client_simulates (md5 : Lc → Lc)
    (outcomes : List (Lc × Except Lc (Lc × Nat))) (p : ProjectData) (now : Lc) :
    generateComprehensiveDocumentation md5 false outcomes p now =
      simulateComprehensiveGeneration p now ∧
    (simulateComprehensiveGeneration p now).method = S "multi-agent-simulation" ∧
    (simulateComprehensiveGeneration p now).tabs.length = agentRosterNames.length + 1 := by
  refine ⟨rfl, rfl, rfl⟩

/-! ## Structural lemmas about `_try_add_tab` and its fold -/

theorem tryAddTab_state_cases (md5 : Lc → Lc) (st : AsmState) (t c a : Lc) :
    (tryAddTab md5 st t c a).2 = st ∨
    (tryAddTab md5 st t c a).2 =
      { tabs := st.tabs ++ [mkTab t c a st.sectionCount],
        fullParts := st.fullParts ++
          [S "# " ++ natStr st.sectionCount ++ S ". " ++ t ++ S "\n", c, S "\n\n---\n"],
        seenHashes := st.seenHashes ++ [md5 (normalizeContent c)],
        seenTitles := st.seenTitles ++ [normalizeTitle t],
        sectionCount := st.sectionCount + 1 } := by
  unfold tryAddTab
  by_cases h1 : normalizeTitle t ∈ st.seenTitles
  · simp [h1]
  · by_cases h2 : md5 (normalizeContent c) ∈ st.seenHashes
    · simp [h1, h2]
    · by_cases h3 : st.tabs.any (fun e => similarityExceeds e.content c)
      · simp [h1, h2, h3]
      · simp [h1, h2, h3]

theorem addTabsFold_fullParts_ext (md5 : Lc → Lc) (cs : List (Lc × Lc × Lc)) :
    ∀ st : AsmState, ∃ ext, (addTabsFold md5 st cs).fullParts = st.fullParts ++ ext := by
  induction cs with
  | nil => intro st; exact ⟨[], by simp [addTabsFold]⟩
  | cons e rest ih =>
    intro st
    obtain ⟨ext, hext⟩ := ih (tryAddTab md5 st e.1 e.2.1 e.2.2).2
    rcases tryAddTab_state_cases md5 st e.1 e.2.1 e.2.2 with h | h
    · exact ⟨ext, by simpa [addTabsFold, h] using hext⟩
    · refine ⟨[S "# " ++ natStr st.sectionCount ++ S ". " ++ e.1 ++ S "\n", e.2.1,
        S "\n\n---\n"] ++ ext, ?_⟩
      rw [addTabsFold, hext, h]
      simp

theorem addTabsFold_tabs_mem (md5 : Lc → Lc) (cs : List (Lc × Lc × Lc)) :
    ∀ st : AsmState, ∀ x ∈ (addTabsFold md5 st cs).tabs,
      x ∈ st.tabs ∨ ∃ e ∈ cs, ∃ n, x = mkTab e.1 e.2.1 e.2.2 n := by
  induction cs with
  | nil => intro st x hx; exact Or.inl (by simpa [addTabsFold] using hx)
  | cons e rest ih =>
    intro st x hx
    rw [addTabsFold] at hx
    rcases ih _ x hx with hmem | ⟨e', he', n, hn⟩
    · rcases tryAddTab_state_cases md5 st e.1 e.2.1 e.2.2 with h | h
      · rw [h] at hmem
        exact Or.inl hmem
      · rw [h] at hmem
        rcases List.mem_append.mp hmem with h' | h'
        · exact Or.inl h'
        · exact Or.inr ⟨e, List.mem_cons_self e rest, st.sectionCount, by simpa using h'⟩
    · exact Or.inr ⟨e', List.mem_cons_of_mem e he', n, hn⟩

/-- Numbering invariant of the `_try_add_tab` state: accepted tabs carry the
dense section numbers `1..len` in acceptance order, and the counter sits one
past them. -/
def NumOK (st : AsmState) : Prop :=
  st.tabs.map Tab.section_number = (List.range' 1 st.tabs.length).map some ∧
  st.sectionCount = st.tabs.length + 1

theorem tryAddTab_numOK (md5 : Lc → Lc) (st : AsmState) (t c a : Lc) (h : NumOK st) :
    NumOK (tryAddTab md5 st t c a).2 := by
  rcases tryAddTab_state_cases md5 st t c a with hc | hc
  · rw [hc]; exact h
  · obtain ⟨h1, h2⟩ := h
    rw [hc]
    constructor
    · simp only [List.map_append, List.length_append, List.map_cons, List.map_nil, h1,
        List.length_map, List.length_cons, List.length_nil, Nat.zero_add]
      rw [List.range'_concat]
      simp only [List.map_append, List.map_cons, List.map_nil, List.append_cancel_left_eq,
        List.cons.injEq, and_true, Option.some.injEq, mkTab, h2]
      omega
    · simp [h2]

theorem addTabsFold_numOK (md5 : Lc → Lc) (cs : List (Lc × Lc × Lc)) :
    ∀ st : AsmState, NumOK st → NumOK (addTabsFold md5 st cs) := by
  induction cs with
  | nil => intro st h; simpa [addTabsFold] using h
  | cons e rest ih =>
    intro st h
    rw [addTabsFold]
    exact ih _ (tryAddTab_numOK md5 st e.1 e.2.1 e.2.2 h)

/-- Every tab accepted by the fold carries a section number. -/
theorem numOK_isSome (st : AsmState) (h : NumOK st) :
    ∀ x ∈ st.tabs, x.section_number.isSome := by
  intro x hx
  obtain ⟨i, hi, hxi⟩ := List.mem_iff_getElem.mp hx
  have hmap := congrArg (fun l => l[i]?) h.1
  have hlen : i < (List.range' 1 st.tabs.length).length := by simpa using hi
  simp only [List.getElem?_map, List.getElem?_eq_getElem hi, List.getElem?_eq_getElem hlen,
    Option.map_some'] at hmap
  have hsn := Option.some.inj hmap
  rw [hxi] at hsn
  rw [hsn]
  rfl

/-- Dedup invariant of the `_try_add_tab` state: every accepted tab's
fingerprint is recorded in `seen_hashes`, and accepted tabs are pairwise
fingerprint-distinct and pairwise below the similarity threshold. -/
def DedupOK (md5 : Lc → Lc) (st : AsmState) : Prop :=
  (∀ x ∈ st.tabs, md5 (normalizeContent x.content) ∈ st.seenHashes) ∧
  st.tabs.Pairwise (fun x y =>
    md5 (normalizeContent x.content) ≠ md5 (normalizeContent y.content) ∧
    similarityExceeds x.content y.content = false)

theorem tryAddTab_dedupOK (md5 : Lc → Lc) (st : AsmState) (t c a : Lc)
    (h : DedupOK md5 st) : DedupOK md5 (tryAddTab md5 st t c a).2 := by
  obtain ⟨hmem, hpw⟩ := h
  unfold tryAddTab
  by_cases h1 : normalizeTitle t ∈ st.seenTitles
  · simpa [h1] using ⟨hmem, hpw⟩
  · by_cases h2 : md5 (normalizeContent c) ∈ st.seenHashes
    · simpa [h1, h2] using ⟨hmem, hpw⟩
    · by_cases h3 : st.tabs.any (fun e => similarityExceeds e.content c)
      · simpa [h1, h2, h3] using ⟨hmem, hpw⟩
      · simp only [h1, h2, h3, if_false, if_neg, Bool.false_eq_true, not_false_iff]
        constructor
        · intro x hx
          simp only at hx
          rcases List.mem_append.mp hx with hx' | hx'
          · exact List.mem_append.mpr (Or.inl (hmem x hx'))
          · simp only [List.mem_singleton] at hx'
            subst hx'
            exact List.mem_append.mpr (Or.inr (by simp [mkTab]))
        · simp only
          rw [List.pairwise_append]
          refine ⟨hpw, List.pairwise_singleton _ _, ?_⟩
          intro x hx y hy
          simp only [List.mem_singleton] at hy
          subst hy
          have hany : st.tabs.any (fun e => similarityExceeds e.content c) = false :=
            Bool.eq_false_iff.mpr h3
          have hsim : similarityExceeds x.content c = false := by
            simpa using List.any_eq_false.mp hany x hx
          refine ⟨fun hfp => h2 ?_, by simpa [mkTab] using hsim⟩
          have : md5 (normalizeContent x.content) = md5 (normalizeContent c) := by
            simpa [mkTab] using hfp
          rw [← this]
          exact hmem x hx

theorem addTabsFold_dedupOK (md5 : Lc → Lc) (cs : List (Lc × Lc × Lc)) :
    ∀ st : AsmState, DedupOK md5 st → DedupOK md5 (addTabsFold md5 st cs) := by
  induction cs with
  | nil => intro st h; simpa [addTabsFold] using h
  | cons e rest ih =>
    intro st h
    rw [addTabsFold]
    exact ih _ (tryAddTab_dedupOK md5 st e.1 e.2.1 e.2.2 h)

/-- When the code's similarity test does not fire, the overlap ratio is at
most `0.65` (as an exact rational comparison; when either word set is empty
the intersection is empty and the bound is trivial). -/
theorem similarityExceeds_false_le {e c : Lc} (h : similarityExceeds e c = false) :
    100 * wordOverlapCommon e c ≤ 65 * wordSetMax e c := by
  unfold similarityExceeds at h
  by_cases he : (wordSet e).isEmpty
  · have he' : wordSet e = [] := by simpa using he
    simp [wordOverlapCommon, he']
  · by_cases hc : (wordSet c).isEmpty
    · have hc' : wordSet c = [] := by simpa using hc
      simp [wordOverlapCommon, hc']
    · simp only [he, hc, Bool.not_false, Bool.true_and, decide_eq_false_iff_not,
        not_lt] at h
      omega

/-- A candidate whose content exceeds the similarity threshold against some
already-accepted tab is always rejected and leaves the state unchanged,
whatever its title and fingerprint. -/
theorem tryAddTab_rejects_similar (md5 : Lc → Lc) (st : AsmState) (t c a : Lc)
    (h : ∃ e ∈ st.tabs, similarityExceeds e.content c = true) :
    tryAddTab md5 st t c a = (false, st) := by
  unfold tryAddTab
  by_cases h1 : normalizeTitle t ∈ st.seenTitles
  · simp [h1]
  · by_cases h2 : md5 (normalizeContent c) ∈ st.seenHashes
    · simp [h1, h2]
    · have h3 : st.tabs.any (fun e => similarityExceeds e.content c) = true :=
        List.any_eq_true.mpr h
      simp [h1, h2, h3]

/-- The accept/reject decisions of `_try_add_tab` never read
`full_content_parts`, so the accepted tabs (and the bookkeeping sets and
counter) are independent of it. -/
theorem addTabsFold_fullParts_indep (md5 : Lc → Lc) (cs : List (Lc × Lc × Lc)) :
    ∀ (tabs : List Tab) (sh stt : List Lc) (n : Nat) (fp fp' : List Lc),
      (addTabsFold md5 ⟨tabs, fp, sh, stt, n⟩ cs).tabs =
        (addTabsFold md5 ⟨tabs, fp', sh, stt, n⟩ cs).tabs := by
  induction cs with
  | nil => intros; rfl
  | cons e rest ih =>
    intro tabs sh stt n fp fp'
    rw [addTabsFold, addTabsFold]
    unfold tryAddTab
    by_cases h1 : normalizeTitle e.1 ∈ stt
    · simpa [h1] using ih tabs sh stt n fp fp'
    · by_cases h2 : md5 (normalizeContent e.2.1) ∈ sh
      · simpa [h1, h2] using ih tabs sh stt n fp fp'
      · by_cases h3 : tabs.any (fun x => similarityExceeds x.content e.2.1)
        · simpa [h1, h2, h3] using ih tabs sh stt n fp fp'
        · simpa [h1, h2, h3] using
            ih (tabs ++ [mkTab e.1 e.2.1 e.2.2 n]) (sh ++ [md5 (normalizeContent e.2.1)])
              (stt ++ [normalizeTitle e.1]) (n + 1)
              (fp ++ [S "# " ++ natStr n ++ S ". " ++ e.1 ++ S "\n", e.2.1, S "\n\n---\n"])
              (fp' ++ [S "# " ++ natStr n ++ S ". " ++ e.1 ++ S "\n", e.2.1, S "\n\n---\n"])

/-! ## Validity and provenance lemmas for the assembler -/

theorem validContent_spec {c0 : Lc} (h : validContent c0 = true) :
    (pyStrip c0).isEmpty = false ∧
    100 ≤ nonHeadingWordCount (pyStrip c0) ∧
    (failurePhrases.any (fun ph => pyContains ph (pyLower (pyStrip c0)))) = false := by
  by_cases h1 : (pyStrip c0).isEmpty
  · simp [validContent, h1] at h
  · by_cases h2 : nonHeadingWordCount (pyStrip c0) < 100
    · simp [validContent, h1, h2] at h
    · by_cases h5 : (failurePhrases.any (fun ph => pyContains ph (pyLower (pyStrip c0)))) = true
      · simp [validContent, h1, h2, h5] at h
      · exact ⟨by simpa using h1, by omega, by simpa using h5⟩

/-- Every candidate handed to `_try_add_tab` is the stripped content of a
valid result of the same agent. -/
theorem orderedCandidates_spec (vr : List (Lc × Lc)) :
    ∀ e ∈ orderedCandidates vr, ∃ c0, (e.2.2, c0) ∈ vr ∧ e.2.1 = pyStrip c0 := by
  intro e he
  rcases List.mem_append.mp he with h1 | h2
  · obtain ⟨name, hname, hmap⟩ := List.mem_filterMap.mp h1
    rcases hfind : vr.find? (fun r => r.1 = name) with _ | entry
    · rw [hfind] at hmap
      exact absurd hmap (by simp)
    · rw [hfind] at hmap
      have hent : entry ∈ vr := List.mem_of_find?_eq_some hfind
      have hfst : entry.1 = name := by simpa using List.find?_some hfind
      simp only [Option.map_some', Option.some.injEq] at hmap
      refine ⟨entry.2, ?_, ?_⟩
      · have heq : (name, entry.2) = entry := by rw [← hfst]
        rw [← hmap]
        simpa [heq] using hent
      · rw [← hmap]
  · obtain ⟨entry, hentry, hmap⟩ := List.mem_filterMap.mp h2
    have hent : entry ∈ vr := (List.mem_filter.mp hentry).1
    by_cases hempty : (pyStrip entry.2).isEmpty
    · rw [if_pos hempty] at hmap
      exact absurd hmap (by simp)
    · rw [if_neg hempty] at hmap
      simp only [Option.some.injEq] at hmap
      refine ⟨entry.2, ?_, ?_⟩
      · rw [← hmap]
        exact hent
      · rw [← hmap]

/-- Every tab of an assembled result that carries a section number is an
accepted candidate tab: it is `mkTab` of an ordered candidate built from a
valid result. -/
theorem assemble_numbered_tab_mem (md5 : Lc → Lc) (results : List (Lc × Lc))
    (p : ProjectData) (now : Lc) :
    ∀ x ∈ (assembleFinalDocumentation md5 results p now).tabs,
      x.section_number.isSome = true →
      ∃ e ∈ orderedCandidates (results.filter (fun r => validContent r.2)),
        ∃ n, x = mkTab e.1 e.2.1 e.2.2 n := by
  intro x hx hsome
  unfold assembleFinalDocumentation at hx
  by_cases hvr : (results.filter (fun r => validContent r.2)).isEmpty
  · rw [if_pos hvr] at hx
    simp only [List.mem_singleton] at hx
    rw [hx] at hsome
    exact absurd hsome (by simp)
  · rw [if_neg hvr] at hx
    simp only at hx
    set st := addTabsFold md5
      { tabs := [],
        fullParts := [buildFullToc (results.filter (fun r => validContent r.2)) p now ++
          S "\n\n---\n"],
        seenHashes := [], seenTitles := [], sectionCount := 1 }
      (orderedCandidates (results.filter (fun r => validContent r.2))) with hst
    by_cases hempty : st.tabs.isEmpty
    · rw [if_pos hempty] at hx
      have : x ∈ (if (1:Nat) <
          [({ title := S "Project Analysis", content := createFallbackDocumentation p,
              word_count := (pySplit (createFallbackDocumentation p)).length,
              agent := S "Fallback", section_number := none } : Tab)].length then
            overviewTab (buildFullToc (results.filter (fun r => validContent r.2)) p now) ::
              [({ title := S "Project Analysis", content := createFallbackDocumentation p,
                  word_count := (pySplit (createFallbackDocumentation p)).length,
                  agent := S "Fallback", section_number := none } : Tab)]
          else
            [({ title := S "Project Analysis", content := createFallbackDocumentation p,
                word_count := (pySplit (createFallbackDocumentation p)).length,
                agent := S "Fallback", section_number := none } : Tab)]) := hx
      rw [if_neg (by simp)] at this
      simp only [List.mem_singleton] at this
      rw [this] at hsome
      exact absurd hsome (by simp)
    · rw [if_neg hempty] at hx
      have hmem : x ∈ st.tabs := by
        by_cases hlen : 1 < st.tabs.length
        · rw [if_pos hlen] at hx
          rcases List.mem_cons.mp hx with hov | h'
          · rw [hov] at hsome
            exact absurd hsome (by simp [overviewTab])
          · exact h'
        · rw [if_neg hlen] at hx
          exact hx
      rcases addTabsFold_tabs_mem md5 _ _ x hmem with h0 | hcand
      · exact absurd h0 (by simp)
      · exact hcand

/-- From the numbering invariant: the section numbers present in a tab list
prefixed by number-free tabs form `1..k` where `k` counts the numbered
tabs. -/
theorem filterMap_sn_of_numOK (st : AsmState) (h : NumOK st) :
    st.tabs.filterMap Tab.section_number =
      List.range' 1 ((st.tabs.filter (fun t => t.section_number.isSome)).length) := by
  have hall : st.tabs.filter (fun t => t.section_number.isSome) = st.tabs :=
    List.filter_eq_self.mpr (numOK_isSome st h)
  rw [hall]
  have : st.tabs.filterMap Tab.section_number =
      (st.tabs.map Tab.section_number).filterMap id := by
    rw [List.filterMap_map]
    rfl
  rw [this, h.1, List.filterMap_map]
  simp

/-- The density equation for a full assembled result. -/
theorem assemble_filterMap_sn (md5 : Lc → Lc) (results : List (Lc × Lc))
    (p : ProjectData) (now : Lc) :
    (assembleFinalDocumentation md5 results p now).tabs.filterMap Tab.section_number =
      List.range' 1 (((assembleFinalDocumentation md5 results p now).tabs.filter
        (fun t => t.section_number.isSome)).length) := by
  unfold assembleFinalDocumentation
  by_cases hvr : (results.filter (fun r => validContent r.2)).isEmpty
  · rw [if_pos hvr]
    rfl
  · rw [if_neg hvr]
    simp only
    set st := addTabsFold md5
      { tabs := [],
        fullParts := [buildFullToc (results.filter (fun r => validContent r.2)) p now ++
          S "\n\n---\n"],
        seenHashes := [], seenTitles := [], sectionCount := 1 }
      (orderedCandidates (results.filter (fun r => validContent r.2))) with hst
    have hnum : NumOK st := addTabsFold_numOK md5 _ _ (by constructor <;> rfl)
    by_cases hempty : st.tabs.isEmpty
    · rw [if_pos hempty]
      rw [if_neg (by simp)]
      rfl
    · rw [if_neg hempty]
      by_cases hlen : 1 < st.tabs.length
      · rw [if_pos hlen]
        simp only [List.filterMap_cons, overviewTab, List.filter_cons]
        simp only [Option.isSome_none, Bool.false_eq_true, if_false]
        exact filterMap_sn_of_numOK st hnum
      · rw [if_neg hlen]
        exact filterMap_sn_of_numOK st hnum

/-! ## C3: the deduplication invariant -/

/-- C3: in one assembled result, the accepted (numbered) sections are
pairwise distinct under the content fingerprint `md5` of the cleaned,
lowercased, whitespace-collapsed content, and pairwise at or below the 0.65
word-overlap ratio; moreover a candidate exceeding 0.65 similarity against
any already-accepted section is rejected (state unchanged) even when its
title and fingerprint differ from all accepted ones. -/
theorem c3_dedup_invariant (md5 : Lc → Lc) (results : List (Lc × Lc))
    (p : ProjectData) (now : Lc) :
    (((assembleFinalDocumentation md5 results p now).tabs.filter
        (fun t => t.section_number.isSome)).Pairwise (fun x y =>
      md5 (normalizeContent x.content) ≠ md5 (normalizeContent y.content) ∧
      100 * wordOverlapCommon x.content y.content ≤
        65 * wordSetMax x.content y.content)) ∧
    (∀ (st : AsmState) (t c a : Lc),
      (∃ e ∈ st.tabs, similarityExceeds e.content c = true) →
      tryAddTab md5 st t c a = (false, st)) := by
  constructor
  · unfold assembleFinalDocumentation
    by_cases hvr : (results.filter (fun r => validContent r.2)).isEmpty
    · rw [if_pos hvr]
      simp
    · rw [if_neg hvr]
      simp only
      set st := addTabsFold md5
        { tabs := [],
          fullParts := [buildFullToc (results.filter (fun r => validContent r.2)) p now ++
            S "\n\n---\n"],
          seenHashes := [], seenTitles := [], sectionCount := 1 }
        (orderedCandidates (results.filter (fun r => validContent r.2))) with hst
      have hnum : NumOK st := addTabsFold_numOK md5 _ _ (by constructor <;> rfl)
      have hded : DedupOK md5 st :=
        addTabsFold_dedupOK md5 _ _ ⟨by simp, List.Pairwise.nil⟩
      have hall : st.tabs.filter (fun t => t.section_number.isSome) = st.tabs :=
        List.filter_eq_self.mpr (numOK_isSome st hnum)
      have hpw : st.tabs.Pairwise (fun x y =>
          md5 (normalizeContent x.content) ≠ md5 (normalizeContent y.content) ∧
          100 * wordOverlapCommon x.content y.content ≤
            65 * wordSetMax x.content y.content) :=
        hded.2.imp (fun h => ⟨h.1, similarityExceeds_false_le h.2⟩)
      by_cases hempty : st.tabs.isEmpty
      · rw [if_pos hempty]
        rw [if_neg (by simp)]
        simp
      · rw [if_neg hempty]
        by_cases hlen : 1 < st.tabs.length
        · rw [if_pos hlen]
          simp only [List.filter_cons, overviewTab, Option.isSome_none, Bool.false_eq_true,
            if_false]
          rw [hall]
          exact hpw
        · rw [if_neg hlen]
          rw [hall]
          exact hpw
  · exact fun st t c a h => tryAddTab_rejects_similar md5 st t c a h

/-- Five lines of twenty copies of one word: 100 words, 5 non-heading
lines, 100 flattened characters — the smallest shape that passes the
validation filter. -/
def repeatedWordContent (w : Lc) : Lc :=
  pyJoin (S "\n") (List.replicate 5 (pyJoin (S " ") (List.replicate 20 w)))

/-- A frozen clock reading. -/
def sampleNow : Lc := S "2024-01-02 03:04:05"

/-- A later clock reading. -/
def sampleNowLater : Lc := S "2024-01-02 03:04:06"

/-- Two valid agent results with disjoint vocabularies. -/
def sampleResults : List (Lc × Lc) :=
  [(S "Code Architecture Agent", repeatedWordContent (S "a")),
   (S "System Architecture Agent", repeatedWordContent (S "b"))]

/-- A concrete `_try_add_tab` state holding one accepted section. -/
def c3State : AsmState :=
  { tabs := [{ title := S "T", content := S "alpha beta gamma", word_count := 3,
               agent := S "X", section_number := some 1 }],
    fullParts := [], seenHashes := [S "h0"], seenTitles := [S "t0"], sectionCount := 2 }

/-- Witness for `c3_dedup_invariant`: the pairwise invariant on a concrete
two-section assembly, and the rejection of a concrete candidate sharing 3
of its 4 distinct words (ratio 0.75 > 0.65) with an accepted section whose
title and fingerprint differ. -/
theorem c3_dedup_invariant_witness :
    (((assembleFinalDocumentation md5Id sampleResults emptyProject sampleNow).tabs.filter
        (fun t => t.section_number.isSome)).Pairwise (fun x y =>
      md5Id (normalizeContent x.content) ≠ md5Id (normalizeContent y.content) ∧
      100 * wordOverlapCommon x.content y.content ≤
        65 * wordSetMax x.content y.content)) ∧
    tryAddTab md5Id c3State (S "U") (S "alpha beta gamma delta") (S "Y") = (false, c3State) :=
  ⟨(c3_dedup_invariant md5Id sampleResults emptyProject sampleNow).1,
   (c3_dedup_invariant md5Id sampleResults emptyProject sampleNow).2 c3State
     (S "U") (S "alpha beta gamma delta") (S "Y")
     ⟨{ title := S "T", content := S "alpha beta gamma", word_count := 3,
        agent := S "X", section_number := some 1 }, by decide, by decide⟩⟩

/-! ## C4: section numbering -/

/-- No tab built by the simulation path carries a `section_number` key. -/
theorem simulate_tabs_sn_none (p : ProjectData) (now : Lc) :
    ∀ t ∈ (simulateComprehensiveGeneration p now).tabs, t.section_number = none := by
  intro t ht
  simp only [simulateComprehensiveGeneration] at ht
  rcases List.mem_cons.mp ht with h | h
  · rw [h]
  · obtain ⟨sec, hsec, hmap⟩ := List.mem_map.mp h
    rw [← hmap]

/-- C4 (counterexample): on the simulation path the claimed dense numbering
`1..N` in display order fails — the result has nine tabs but none of them
carries a `section_number` at all. -/
theorem c4_counterexample :
    (simulateComprehensiveGeneration emptyProject sampleNow).tabs.length = 9 ∧
    ¬ ((simulateComprehensiveGeneration emptyProject sampleNow).tabs.map Tab.section_number =
       (List.range
         (simulateComprehensiveGeneration emptyProject sampleNow).tabs.length).map
         (fun i => some (i + 1))) := by
  refine ⟨rfl, by decide⟩

/-- C4 (amended): in every returned result the `section_number` values
present across the tabs list form the dense sequence `1..k` in display
order, where `k` counts the tabs that carry a number — these are exactly
the sections accepted by `_try_add_tab`; the prepended overview tab, the
fallback tabs, and every tab of the simulation path carry no
`section_number` key. -/
theorem c4_dense_section_numbers (md5 : Lc → Lc) (hasClient : Bool)
    (outcomes : List (Lc × Except Lc (Lc × Nat))) (p : ProjectData) (now : Lc) :
    ((generateComprehensiveDocumentation md5 hasClient outcomes p now).tabs.filterMap
        Tab.section_number =
      List.range' 1
        (((generateComprehensiveDocumentation md5 hasClient outcomes p now).tabs.filter
          (fun t => t.section_number.isSome)).length)) ∧
    (∀ t ∈ (simulateComprehensiveGeneration p now).tabs, t.section_number = none) := by
  refine ⟨?_, simulate_tabs_sn_none p now⟩
  have hsim : ∀ q nowq, (simulateComprehensiveGeneration q nowq).tabs.filterMap
        Tab.section_number =
      List.range' 1 (((simulateComprehensiveGeneration q nowq).tabs.filter
        (fun t => t.section_number.isSome)).length) := by
    intro q nowq
    have h1 : (simulateComprehensiveGeneration q nowq).tabs.filterMap Tab.section_number = [] :=
      List.filterMap_eq_nil_iff.mpr (simulate_tabs_sn_none q nowq)
    have h2 : (simulateComprehensiveGeneration q nowq).tabs.filter
        (fun t => t.section_number.isSome) = [] := by
      refine List.filter_eq_nil_iff.mpr ?_
      intro t ht
      rw [simulate_tabs_sn_none q nowq t ht]
      simp
    rw [h1, h2]
    rfl
  unfold generateComprehensiveDocumentation
  by_cases hc : hasClient
  · simp only [hc, Bool.not_true, Bool.false_eq_true, if_false]
    by_cases hemp : (runAgentsParallel outcomes).isEmpty ||
        (runAgentsParallel outcomes).all (fun r => (pyStrip r.2.1).isEmpty)
    · rw [if_pos hemp]
      exact hsim p now
    · rw [if_neg hemp]
      by_cases hfin : (assembleFinalDocumentation md5
          ((enhanceCrossReferences (runAgentsParallel outcomes) p).map
            (fun r => (r.1, r.2.1))) p now).tabs.isEmpty
      · rw [if_pos hfin]
        rfl
      · rw [if_neg hfin]
        exact assemble_filterMap_sn md5 _ p now
  · simp only [hc, Bool.not_false, if_true]
    exact hsim p now

/-- Witness for `c4_dense_section_numbers`: a concrete real-path run with
two accepted sections, and the overview tab of a concrete simulation run
carrying no number. -/
theorem c4_dense_section_numbers_witness :
    ((generateComprehensiveDocumentation md5Id true
        [(S "Code Architecture Agent", Except.ok (repeatedWordContent (S "a"), 0)),
         (S "System Architecture Agent", Except.ok (repeatedWordContent (S "b"), 0))]
        emptyProject sampleNow).tabs.filterMap Tab.section_number =
      List.range' 1
        (((generateComprehensiveDocumentation md5Id true
            [(S "Code Architecture Agent", Except.ok (repeatedWordContent (S "a"), 0)),
             (S "System Architecture Agent", Except.ok (repeatedWordContent (S "b"), 0))]
            emptyProject sampleNow).tabs.filter
          (fun t => t.section_number.isSome)).length)) ∧
    ((simulateComprehensiveGeneration emptyProject sampleNow).tabs.headD
        (mkTab [] [] [] 0)).section_number = none :=
  ⟨(c4_dense_section_numbers md5Id true
      [(S "Code Architecture Agent", Except.ok (repeatedWordContent (S "a"), 0)),
       (S "System Architecture Agent", Except.ok (repeatedWordContent (S "b"), 0))]
      emptyProject sampleNow).1,
   (c4_dense_section_numbers md5Id true [] emptyProject sampleNow).2
     ((simulateComprehensiveGeneration emptyProject sampleNow).tabs.headD
       (mkTab [] [] [] 0)) (by decide)⟩

/-! ## C7: per-section minimums -/

/-- C7 (counterexample): the claim fails for the prepended
`Documentation Overview` tab, whose content is the table of contents and
whose `word_count` (33 here) is far below 100. -/
theorem c7_counterexample :
    ¬ (∀ t ∈ (assembleFinalDocumentation md5Id sampleResults emptyProject sampleNow).tabs,
        t.content ≠ [] ∧ 100 ≤ t.word_count) := by
  decide

/-- C7 (amended): every tab of an assembled result that carries a
`section_number` — i.e. every accepted agent section, as opposed to the
prepended overview tab and the fallback tabs — has non-empty content and
`word_count ≥ 100`; and an agent all of whose results have fewer than 100
non-heading words contributes no numbered section to the result. -/
theorem c7_section_minimums (md5 : Lc → Lc) (results : List (Lc × Lc))
    (p : ProjectData) (now : Lc) (A : Lc) :
    (∀ t ∈ (assembleFinalDocumentation md5 results p now).tabs,
       t.section_number.isSome = true → t.content ≠ [] ∧ 100 ≤ t.word_count) ∧
    ((∀ c0, (A, c0) ∈ results → nonHeadingWordCount (pyStrip c0) < 100) →
      ∀ t ∈ (assembleFinalDocumentation md5 results p now).tabs,
        t.section_number.isSome = true → t.agent ≠ A) := by
  constructor
  · intro t ht hsome
    obtain ⟨e, he, n, hmk⟩ := assemble_numbered_tab_mem md5 results p now t ht hsome
    obtain ⟨c0, hc0, hcontent⟩ := orderedCandidates_spec _ e he
    have hvalid : validContent c0 = true := by
      simpa using (List.mem_filter.mp hc0).2
    obtain ⟨hne, hwc, _⟩ := validContent_spec hvalid
    constructor
    · rw [hmk]
      simp only [mkTab, hcontent]
      intro hnil
      rw [hnil] at hne
      simp at hne
    · rw [hmk]
      simpa [mkTab, hcontent] using hwc
  · intro hbad t ht hsome
    obtain ⟨e, he, n, hmk⟩ := assemble_numbered_tab_mem md5 results p now t ht hsome
    obtain ⟨c0, hc0, hcontent⟩ := orderedCandidates_spec _ e he
    have hvalid : validContent c0 = true := by
      simpa using (List.mem_filter.mp hc0).2
    obtain ⟨_, hwc, _⟩ := validContent_spec hvalid
    intro hA
    have hagent : e.2.2 = A := by
      rw [hmk] at hA
      simpa [mkTab] using hA
    have hmemres : (A, c0) ∈ results := by
      rw [← hagent]
      exact List.mem_of_mem_filter hc0
    exact absurd hwc (by have := hbad c0 hmemres; omega)

/-- Results containing an under-length entry for the API agent. -/
def c7Results : List (Lc × Lc) :=
  sampleResults ++ [(S "API Integration Agent", S "tiny text")]

/-- Witness for `c7_section_minimums`: a concrete run in which the first
numbered tab meets both minimums, and the under-length API result is
dropped — no numbered tab belongs to that agent. -/
theorem c7_section_minimums_witness :
    (((assembleFinalDocumentation md5Id c7Results emptyProject sampleNow).tabs.getD 1
        (mkTab [] [] [] 0)).content ≠ [] ∧
     100 ≤ ((assembleFinalDocumentation md5Id c7Results emptyProject sampleNow).tabs.getD 1
        (mkTab [] [] [] 0)).word_count) ∧
    ((assembleFinalDocumentation md5Id c7Results emptyProject sampleNow).tabs.getD 1
        (mkTab [] [] [] 0)).agent ≠ S "API Integration Agent" :=
  ⟨(c7_section_minimums md5Id c7Results emptyProject sampleNow
      (S "API Integration Agent")).1 _ (by decide) (by decide),
   (c7_section_minimums md5Id c7Results emptyProject sampleNow
      (S "API Integration Agent")).2
     (by
       intro c0 hc0
       rcases List.mem_cons.mp hc0 with h | h
       · have hn : S "API Integration Agent" = S "Code Architecture Agent" :=
           congrArg Prod.fst h
         exact absurd hn (by decide)
       · rcases List.mem_cons.mp h with h' | h'
         · have hn : S "API Integration Agent" = S "System Architecture Agent" :=
             congrArg Prod.fst h'
           exact absurd hn (by decide)
         · rcases List.mem_cons.mp h' with h'' | h''
           · have hn : c0 = S "tiny text" := congrArg Prod.snd h''
             rw [hn]
             decide
           · exact absurd h'' (by simp))
     _ (by decide) (by decide)⟩

/-! ## C2: determinism of assembly -/

/-- Mapping any tab attribute that does not look at the overview tab's
content gives the same answer whatever the clock reading: the accept/reject
decisions and all accepted tabs are clock-independent, and the clock enters
only through the table of contents (the full text and the overview tab's
content). -/
theorem assemble_tabs_now_invariant (md5 : Lc → Lc) (results : List (Lc × Lc))
    (p : ProjectData) (now now' : Lc) (f : Tab → β)
    (hf : ∀ toc toc', f (overviewTab toc) = f (overviewTab toc')) :
    (assembleFinalDocumentation md5 results p now).tabs.map f =
    (assembleFinalDocumentation md5 results p now').tabs.map f := by
  unfold assembleFinalDocumentation
  by_cases hvr : (results.filter (fun r => validContent r.2)).isEmpty
  · rw [if_pos hvr, if_pos hvr]
  · rw [if_neg hvr, if_neg hvr]
    simp only
    have htabs := addTabsFold_fullParts_indep md5
      (orderedCandidates (results.filter (fun r => validContent r.2))) [] [] [] 1
      [buildFullToc (results.filter (fun r => validContent r.2)) p now ++ S "\n\n---\n"]
      [buildFullToc (results.filter (fun r => validContent r.2)) p now' ++ S "\n\n---\n"]
    rw [htabs]
    by_cases hempty : (addTabsFold md5
        { tabs := [],
          fullParts := [buildFullToc (results.filter (fun r => validContent r.2)) p now' ++
            S "\n\n---\n"],
          seenHashes := [], seenTitles := [], sectionCount := 1 }
        (orderedCandidates (results.filter (fun r => validContent r.2)))).tabs.isEmpty
    · rw [if_pos hempty]
      simp
    · rw [if_neg hempty]
      by_cases hlen : 1 < (addTabsFold md5
          { tabs := [],
            fullParts := [buildFullToc (results.filter (fun r => validContent r.2)) p now' ++
              S "\n\n---\n"],
            seenHashes := [], seenTitles := [], sectionCount := 1 }
          (orderedCandidates (results.filter (fun r => validContent r.2)))).tabs.length
      · rw [if_pos hlen, if_pos hlen]
        simp only [List.map_cons]
        rw [hf]
      · rw [if_neg hlen, if_neg hlen]

/-- C2 (counterexample): the full document text embeds
`datetime.now().strftime('%Y-%m-%d %H:%M:%S')` in its `**Generated**:` line,
so two invocations of the assembly stage on the same agent results and
project produce different text when the clock has moved by one second. -/
theorem c2_counterexample :
    (assembleFinalDocumentation md5Id sampleResults emptyProject sampleNow).content ≠
    (assembleFinalDocumentation md5Id sampleResults emptyProject sampleNowLater).content := by
  decide

/-- C2 (amended): the assembly stage is a pure function of the agent
results, the project data and the clock reading — with equal clock readings
the two invocations agree byte-for-byte, and whatever the clock readings the
ordered tab titles and section numbers are identical; only the
`**Generated**` timestamp inside the full text and the overview tab's
content can differ. -/
theorem c2_assembly_determinism (md5 : Lc → Lc) (results : List (Lc × Lc))
    (p : ProjectData) (now now' : Lc) :
    ((assembleFinalDocumentation md5 results p now).tabs.map Tab.title =
     (assembleFinalDocumentation md5 results p now').tabs.map Tab.title) ∧
    ((assembleFinalDocumentation md5 results p now).tabs.map Tab.section_number =
     (assembleFinalDocumentation md5 results p now').tabs.map Tab.section_number) ∧
    (now = now' → assembleFinalDocumentation md5 results p now =
      assembleFinalDocumentation md5 results p now') :=
  ⟨assemble_tabs_now_invariant md5 results p now now' Tab.title (fun _ _ => rfl),
   assemble_tabs_now_invariant md5 results p now now' Tab.section_number (fun _ _ => rfl),
   fun h => by rw [h]⟩

/-- Witness for `c2_assembly_determinism`: concrete runs one second apart
share their tab titles, and a repeated run with the frozen clock is
byte-for-byte identical. -/
theorem c2_assembly_determinism_witness :
    ((assembleFinalDocumentation md5Id sampleResults emptyProject sampleNow).tabs.map
        Tab.title =
     (assembleFinalDocumentation md5Id sampleResults emptyProject sampleNowLater).tabs.map
        Tab.title) ∧
    (assembleFinalDocumentation md5Id sampleResults emptyProject sampleNow =
     assembleFinalDocumentation md5Id sampleResults emptyProject sampleNow) :=
  ⟨(c2_assembly_determinism md5Id sampleResults emptyProject sampleNow sampleNowLater).1,
   (c2_assembly_determinism md5Id sampleResults emptyProject sampleNow sampleNow).2.2 rfl⟩

/-! ## C1: the terminal non-emptiness guarantee -/

theorem simulate_facts (p : ProjectData) (now : Lc) :
    1 ≤ (simulateComprehensiveGeneration p now).tabs.length ∧
    (simulateComprehensiveGeneration p now).content ≠ [] := by
  constructor
  · simp [simulateComprehensiveGeneration]
  · simp only [simulateComprehensiveGeneration, List.cons_append]
    exact pyJoin_cons_ne_nil _ _ _ (by decide)

theorem createFallbackDocumentation_ne_nil (p : ProjectData) :
    createFallbackDocumentation p ≠ [] := by
  simp only [createFallbackDocumentation]
  repeat' apply List.append_ne_nil_of_left_ne_nil
  decide

theorem buildFullToc_ne_nil (vr : List (Lc × Lc)) (p : ProjectData) (now : Lc) :
    buildFullToc vr p now ≠ [] := by
  simp only [buildFullToc, List.cons_append]
  exact pyJoin_cons_ne_nil _ _ _ (by decide)

theorem assemble_facts (md5 : Lc → Lc) (results : List (Lc × Lc)) (p : ProjectData)
    (now : Lc) :
    1 ≤ (assembleFinalDocumentation md5 results p now).tabs.length ∧
    (assembleFinalDocumentation md5 results p now).content ≠ [] := by
  unfold assembleFinalDocumentation
  by_cases hvr : (results.filter (fun r => validContent r.2)).isEmpty
  · rw [if_pos hvr]
    exact ⟨by simp, createFallbackDocumentation_ne_nil p⟩
  · rw [if_neg hvr]
    simp only
    set st := addTabsFold md5
      { tabs := [],
        fullParts := [buildFullToc (results.filter (fun r => validContent r.2)) p now ++
          S "\n\n---\n"],
        seenHashes := [], seenTitles := [], sectionCount := 1 }
      (orderedCandidates (results.filter (fun r => validContent r.2))) with hst
    by_cases hempty : st.tabs.isEmpty
    · rw [if_pos hempty, if_pos hempty]
      constructor
      · rw [if_neg (by simp)]
        simp
      · simpa [pyJoin] using createFallbackDocumentation_ne_nil p
    · rw [if_neg hempty, if_neg hempty]
      constructor
      · by_cases hlen : 1 < st.tabs.length
        · rw [if_pos hlen]
          simp
        · rw [if_neg hlen]
          have hne : st.tabs ≠ [] := by simpa using hempty
          have := List.length_pos.mpr hne
          omega
      · obtain ⟨ext, hext⟩ := addTabsFold_fullParts_ext md5
          (orderedCandidates (results.filter (fun r => validContent r.2)))
          { tabs := [],
            fullParts := [buildFullToc (results.filter (fun r => validContent r.2)) p now ++
              S "\n\n---\n"],
            seenHashes := [], seenTitles := [], sectionCount := 1 }
        rw [← hst] at hext
        rw [hext]
        simp only [List.cons_append, List.nil_append]
        exact pyJoin_cons_ne_nil _ _ _
          (append_ne_nil_left (buildFullToc_ne_nil _ p now))

/-- C1: for every input — any client configuration, any combination of
agent completions, exceptions and empty contents — the orchestrator's
result has at least one tab and non-empty document text; the embedding is a
total function, so no exception reaches the caller. -/
theorem c1_generate_never_empty (md5 : Lc → Lc) (hasClient : Bool)
    (outcomes : List (Lc × Except Lc (Lc × Nat))) (p : ProjectData) (now : Lc) :
    1 ≤ (generateComprehensiveDocumentation md5 hasClient outcomes p now).tabs.length ∧
    (generateComprehensiveDocumentation md5 hasClient outcomes p now).content ≠ [] := by
  unfold generateComprehensiveDocumentation
  by_cases hc : hasClient
  · simp only [hc, Bool.not_true, Bool.false_eq_true, if_false]
    by_cases hemp : (runAgentsParallel outcomes).isEmpty ||
        (runAgentsParallel outcomes).all (fun r => (pyStrip r.2.1).isEmpty)
    · rw [if_pos hemp]
      exact simulate_facts p now
    · rw [if_neg hemp]
      by_cases hfin : (assembleFinalDocumentation md5
          ((enhanceCrossReferences (runAgentsParallel outcomes) p).map
            (fun r => (r.1, r.2.1))) p now).tabs.isEmpty
      · rw [if_pos hfin]
        exact ⟨by simp, createFallbackDocumentation_ne_nil p⟩
      · rw [if_neg hfin]
        exact assemble_facts md5 _ p now
  · simp only [hc, Bool.not_false, if_true]
    exact simulate_facts p now

/-! ## String-shape lemmas for C10 -/

theorem pyContains_nil_left (l : Lc) : pyContains [] l = true := by
  induction l with
  | nil => rfl
  | cons c cs ih => simp [pyContains]

theorem pyContains_append_right {sub l : Lc} (a : Lc) (h : pyContains sub l = true) :
    pyContains sub (a ++ l) = true := by
  induction a with
  | nil => simpa using h
  | cons c cs ih =>
    simp only [List.cons_append, pyContains, Bool.or_eq_true]
    exact Or.inr ih

theorem pyContains_append_left {sub l : Lc} (b : Lc) (h : pyContains sub l = true) :
    pyContains sub (l ++ b) = true := by
  induction l with
  | nil =>
    have hsub : sub = [] := by
      cases sub with
      | nil => rfl
      | cons s ss => simp [pyContains, List.isPrefixOf] at h
    rw [hsub]
    exact pyContains_nil_left b
  | cons c cs ih =>
    simp only [pyContains, Bool.or_eq_true] at h
    rcases h with hpre | hrest
    · have h1 : sub <+: c :: cs := List.isPrefixOf_iff_prefix.mp hpre
      have h2 : sub <+: (c :: cs) ++ b := h1.trans (List.prefix_append _ _)
      simp only [List.cons_append, pyContains, Bool.or_eq_true]
      exact Or.inl (List.isPrefixOf_iff_prefix.mpr (by simpa using h2))
    · simp only [List.cons_append, pyContains, Bool.or_eq_true]
      exact Or.inr (ih hrest)

theorem pyLStrip_cons_of_nonspace {c : Char} (l : Lc) (h : isPySpace c = false) :
    pyLStrip (c :: l) = c :: l := by
  simp [pyLStrip, List.dropWhile_cons, h]

theorem pyRStrip_concat_of_nonspace {c : Char} (l : Lc) (h : isPySpace c = false) :
    pyRStrip (l ++ [c]) = l ++ [c] := by
  simp [pyRStrip, List.dropWhile_cons, h]

/-- A string that starts and ends with a non-whitespace character is fixed
by `str.strip()`. -/
theorem pyStrip_eq_self_shape {x : Lc} {c1 c2 : Char} {l m : Lc}
    (h1 : x = c1 :: l) (h2 : x = m ++ [c2])
    (hc1 : isPySpace c1 = false) (hc2 : isPySpace c2 = false) : pyStrip x = x := by
  have hL : pyLStrip x = x := by rw [h1]; exact pyLStrip_cons_of_nonspace l hc1
  have hR : pyRStrip x = x := by rw [h2]; exact pyRStrip_concat_of_nonspace m hc2
  rw [pyStrip, hL, hR]

theorem pyJoin_concat (sep : Lc) (xs : List Lc) (y : Lc) :
    ∃ pre, pyJoin sep (xs ++ [y]) = pre ++ y := by
  induction xs with
  | nil => exact ⟨[], by simp [pyJoin]⟩
  | cons x xs ih =>
    obtain ⟨pre, hpre⟩ := ih
    cases xs with
    | nil => exact ⟨x ++ sep, by simp [pyJoin]⟩
    | cons z zs =>
      refine ⟨x ++ sep ++ pre, ?_⟩
      show x ++ sep ++ pyJoin sep ((z :: zs) ++ [y]) = x ++ sep ++ pre ++ y
      rw [hpre]
      simp [List.append_assoc]

theorem nodup_keys_unique {α : Type} {l : List (Lc × α)}
    (h : (l.map Prod.fst).Nodup) {a : Lc} {b c : α}
    (h1 : (a, b) ∈ l) (h2 : (a, c) ∈ l) : b = c := by
  induction l with
  | nil => cases h1
  | cons e rest ih =>
    simp only [List.map_cons, List.nodup_cons] at h
    rcases List.mem_cons.mp h1 with hb | hb <;> rcases List.mem_cons.mp h2 with hc | hc
    · exact congrArg Prod.snd (hb.trans hc.symm)
    · exfalso
      apply h.1
      have he : e.1 = a := (congrArg Prod.fst hb).symm
      rw [he]
      exact List.mem_map.mpr ⟨(a, c), hc, rfl⟩
    · exfalso
      apply h.1
      have he : e.1 = a := (congrArg Prod.fst hc).symm
      rw [he]
      exact List.mem_map.mpr ⟨(a, b), hb, rfl⟩
    · exact ih h.2 hb hc

/-! ## C9: image selection and placement -/

/-- The claim's placement rule, following the spec's words: the image
subsection is inserted immediately after the content's first heading (its
first line starting with `#`). -/
def specAfterFirstHeading (content sec : Lc) : Lc :=
  let lines := pySplitNl content
  let idx :=
    match lines.findIdx? (fun ln => pyStartsWith ln (S "#")) with
    | some i => i + 1
    | none => 1
  pyJoin (S "\n") (pyInsert idx sec lines)

/-- A project with one embedded image whose context matches the API
agent's keywords. -/
def c9Project : ProjectData :=
  ⟨some (S "T"), none,
   [⟨S "f.docx", 1, [],
     [⟨S "api_diagram.png", S "AAA", S "the api overview", some (S "API flow")⟩]⟩]⟩

/-- A content whose first heading is the H1 on its first line, with an H2
further down. -/
def c9Content : Lc := S "# Title\nIntro\n## Details\nBody"

/-- C9 (counterexample): an image is embedded, the content's first heading
is its first line, yet the image subsection is not inserted immediately
after it — the code looks for the first line starting with `##`, skipping
the H1. -/
theorem c9_counterexample :
    (pySplitNl c9Content).findIdx? (fun ln => pyStartsWith ln (S "#")) = some 0 ∧
    relevantImages c9Project (S "API Integration Agent") ≠ [] ∧
    addImagesToContent c9Content c9Project (S "API Integration Agent") ≠
      specAfterFirstHeading c9Content
        (imageSectionFor (relevantImages c9Project (S "API Integration Agent"))) := by
  refine ⟨by decide, by decide, by decide⟩

/-- C9 (amended): at most 2 images are embedded; each embedded image is one
of the first two embedded images of the project and is selected by matching
the agent-specific keyword list against the image's context text
concatenated with its name (an agent with no keyword list accepts them
unconditionally); when any image is selected, the image subsection is
inserted one line after the first line starting with `##` — not after the
content's first heading in general — falling back to one line after the
content's first line; with no selected image the content is returned
unchanged. -/
theorem c9_image_embedding (content : Lc) (p : ProjectData) (agentName : Lc) :
    (relevantImages p agentName).length ≤ 2 ∧
    (∀ img ∈ relevantImages p agentName,
      img ∈ (extractEmbeddedImages p).take 2 ∧
      (agentKeywords agentName = [] ∨ ∃ k ∈ agentKeywords agentName,
        pyContains k (pyLower (img.context ++ S " " ++ img.name)) = true)) ∧
    (relevantImages p agentName ≠ [] →
      addImagesToContent content p agentName =
        pyJoin (S "\n") (pyInsert (imageInsertIndex (pySplitNl content))
          (imageSectionFor (relevantImages p agentName)) (pySplitNl content))) ∧
    (relevantImages p agentName = [] → addImagesToContent content p agentName = content) := by
  refine ⟨?_, ?_, ?_, ?_⟩
  · exact le_trans (List.length_filter_le _ _) (List.length_take_le _ _)
  · intro img himg
    obtain ⟨htake, hpred⟩ := List.mem_filter.mp himg
    refine ⟨htake, ?_⟩
    rcases Bool.or_eq_true _ _ ▸ hpred with hempt | hany
    · exact Or.inl (by simpa using hempt)
    · exact Or.inr (List.any_eq_true.mp hany)
  · intro hrel
    unfold addImagesToContent
    have hx : (extractEmbeddedImages p).isEmpty = false := by
      rcases hximg : extractEmbeddedImages p with _ | ⟨i, is⟩
      · exfalso
        apply hrel
        simp [relevantImages, hximg]
      · simp
    rw [if_neg (by simp [hx])]
    rw [if_neg (by simpa using hrel)]
  · intro hrel
    unfold addImagesToContent
    by_cases hx : (extractEmbeddedImages p).isEmpty
    · rw [if_pos hx]
    · rw [if_neg hx]
      rw [if_pos (by simpa using hrel)]

/-- Witness for `c9_image_embedding` on the concrete project: the matching
image is among the first two and matched by the `api` keyword, and the
insertion equation holds with a selected image present. -/
theorem c9_image_embedding_witness :
    (relevantImages c9Project (S "API Integration Agent")).length ≤ 2 ∧
    (⟨S "api_diagram.png", S "AAA", S "the api overview", some (S "API flow")⟩ : ImageRef) ∈
      (extractEmbeddedImages c9Project).take 2 ∧
    addImagesToContent c9Content c9Project (S "API Integration Agent") =
      pyJoin (S "\n") (pyInsert (imageInsertIndex (pySplitNl c9Content))
        (imageSectionFor (relevantImages c9Project (S "API Integration Agent")))
        (pySplitNl c9Content)) :=
  ⟨(c9_image_embedding c9Content c9Project (S "API Integration Agent")).1,
   ((c9_image_embedding c9Content c9Project (S "API Integration Agent")).2.1
     ⟨S "api_diagram.png", S "AAA", S "the api overview", some (S "API flow")⟩
     (by decide)).1,
   (c9_image_embedding c9Content c9Project (S "API Integration Agent")).2.2.1
     (by decide)⟩

/-! ## C10: the failure placeholder never reaches the final tabs -/

theorem pyStrip_eq_self_of_ends {x : Lc}
    (h1 : ∃ c l, x = c :: l ∧ isPySpace c = false)
    (h2 : ∃ m c, x = m ++ [c] ∧ isPySpace c = false) : pyStrip x = x := by
  obtain ⟨c, l, hx1, hc⟩ := h1
  obtain ⟨m, c2, hx2, hc2⟩ := h2
  have hL : pyLStrip x = x := by rw [hx1]; exact pyLStrip_cons_of_nonspace l hc
  have hR : pyRStrip x = x := by rw [hx2]; exact pyRStrip_concat_of_nonspace m hc2
  rw [pyStrip, hL, hR]

theorem pyStrip_failurePlaceholder (A e : Lc) :
    pyStrip (failurePlaceholder A e) = failurePlaceholder A e :=
  pyStrip_eq_self_of_ends ⟨'#', _, rfl, by decide⟩ ⟨_, '*', rfl, by decide⟩

theorem append_last_of_pyJoin (content sep : Lc) (xs : List Lc) (y : Lc) :
    ∃ pre, content ++ pyJoin sep (xs ++ [y]) = pre ++ y := by
  obtain ⟨pre0, h0⟩ := pyJoin_concat sep xs y
  exact ⟨content ++ pre0, by rw [h0, List.append_assoc]⟩

/-- Whatever the agent, the cross-referenced content ends with the constant
`Multi-Agent Analysis` project-context line. -/
theorem addCrossReferences_tail (content A : Lc) (p : ProjectData) :
    ∃ pre, addCrossReferences content A p =
      pre ++ S "- **Multi-Agent Analysis**: This analysis is part of a comprehensive 8-agent documentation system" := by
  unfold addCrossReferences projectContextRefs
  have hsplit : ∀ (l : List Lc) (a b c d : Lc), l ++ [a, b, c, d] = (l ++ [a, b, c]) ++ [d] := by
    intro l a b c d
    simp
  rw [hsplit]
  exact append_last_of_pyJoin content (S "\n") _ _

theorem pyStrip_enhanced_placeholder (A e : Lc) (p : ProjectData) :
    pyStrip (addCrossReferences (failurePlaceholder A e) A p) =
      addCrossReferences (failurePlaceholder A e) A p := by
  obtain ⟨pre, hpre⟩ := addCrossReferences_tail (failurePlaceholder A e) A p
  have hm : (S "- **Multi-Agent Analysis**: This analysis is part of a comprehensive 8-agent documentation system") =
      (S "- **Multi-Agent Analysis**: This analysis is part of a comprehensive 8-agent documentation syste") ++ ['m'] := by
    decide
  refine pyStrip_eq_self_of_ends ⟨'#', _, rfl, by decide⟩
    ⟨pre ++ S "- **Multi-Agent Analysis**: This analysis is part of a comprehensive 8-agent documentation syste",
     'm', ?_, by decide⟩
  rw [hpre, hm, List.append_assoc]

/-- The lowercased placeholder contains the `analysis failed` failure
marker, and it survives the appended cross-references. -/
theorem enhanced_placeholder_contains (A e : Lc) (p : ProjectData) :
    pyContains (S "analysis failed")
      (pyLower (addCrossReferences (failurePlaceholder A e) A p)) = true := by
  have hform : ∃ rest, addCrossReferences (failurePlaceholder A e) A p =
      failurePlaceholder A e ++ rest := ⟨_, rfl⟩
  obtain ⟨rest, hrest⟩ := hform
  rw [hrest]
  have hph : pyContains (S "analysis failed") (pyLower (failurePlaceholder A e)) = true := by
    have hchunk : pyContains (S "analysis failed")
        (pyLower (S " Analysis\n\n*Analysis failed: ")) = true := by decide
    have hsplitup : pyLower (failurePlaceholder A e) =
        (pyLower (S "# ") ++ pyLower A) ++
          (pyLower (S " Analysis\n\n*Analysis failed: ") ++ (pyLower e ++ pyLower (S "*"))) := by
      simp [failurePlaceholder, pyLower, List.append_assoc]
    rw [hsplitup]
    exact pyContains_append_right _ (pyContains_append_left _ hchunk)
  rw [show pyLower (failurePlaceholder A e ++ rest) =
      pyLower (failurePlaceholder A e) ++ pyLower rest from List.map_append _ _ _]
  exact pyContains_append_left _ hph

/-- The cross-referenced failure placeholder never passes the validation
filter. -/
theorem validContent_enhanced_placeholder (A e : Lc) (p : ProjectData) :
    validContent (addCrossReferences (failurePlaceholder A e) A p) = false := by
  have hstrip := pyStrip_enhanced_placeholder A e p
  have hany : (failurePhrases.any (fun ph2 => pyContains ph2
      (pyLower (addCrossReferences (failurePlaceholder A e) A p)))) = true :=
    List.any_eq_true.mpr ⟨S "analysis failed", by decide, enhanced_placeholder_contains A e p⟩
  simp [validContent, hstrip, hany]

/-- The stripped placeholder is non-empty (it starts with `#`). -/
theorem pyStrip_failurePlaceholder_ne_nil (A e : Lc) :
    (pyStrip (failurePlaceholder A e)).isEmpty = false := by
  rw [pyStrip_failurePlaceholder]
  have : failurePlaceholder A e = '#' :: (S " " ++ A ++
      S " Analysis\n\n*Analysis failed: " ++ e ++ S "*") := rfl
  rw [this]
  rfl

/-- C10: the placeholder recorded when an agent's task raises always
contains the `analysis failed` marker; after cross-referencing it still
fails the assembly validation filter; hence no numbered tab of the final
result belongs to the failed agent. -/
theorem c10_failure_placeholder_filtered (md5 : Lc → Lc)
    (outcomes : List (Lc × Except Lc (Lc × Nat))) (p : ProjectData) (now : Lc)
    (A e : Lc) (hmem : (A, Except.error e) ∈ outcomes)
    (hnodup : (outcomes.map Prod.fst).Nodup) :
    pyContains (S "analysis failed") (pyLower (failurePlaceholder A e)) = true ∧
    validContent (addCrossReferences (failurePlaceholder A e) A p) = false ∧
    (∀ t ∈ (generateComprehensiveDocumentation md5 true outcomes p now).tabs,
       t.section_number.isSome = true → t.agent ≠ A) := by
  have hph : pyContains (S "analysis failed") (pyLower (failurePlaceholder A e)) = true := by
    have h := enhanced_placeholder_contains A e p
    have hform : ∃ rest, addCrossReferences (failurePlaceholder A e) A p =
        failurePlaceholder A e ++ rest := ⟨_, rfl⟩
    obtain ⟨rest, hrest⟩ := hform
    have hchunk : pyContains (S "analysis failed")
        (pyLower (S " Analysis\n\n*Analysis failed: ")) = true := by decide
    have hsplitup : pyLower (failurePlaceholder A e) =
        (pyLower (S "# ") ++ pyLower A) ++
          (pyLower (S " Analysis\n\n*Analysis failed: ") ++ (pyLower e ++ pyLower (S "*"))) := by
      simp [failurePlaceholder, pyLower, List.append_assoc]
    rw [hsplitup]
    exact pyContains_append_right _ (pyContains_append_left _ hchunk)
  refine ⟨hph, validContent_enhanced_placeholder A e p, ?_⟩
  intro t ht hsome
  have hpar : (A, failurePlaceholder A e, 0) ∈ runAgentsParallel outcomes :=
    List.mem_map.mpr ⟨(A, Except.error e), hmem, rfl⟩
  have hemp : ((runAgentsParallel outcomes).isEmpty ||
      (runAgentsParallel outcomes).all (fun r => (pyStrip r.2.1).isEmpty)) = false := by
    have h1 : (runAgentsParallel outcomes).isEmpty = false := by
      rcases hpl : runAgentsParallel outcomes with _ | _
      · rw [hpl] at hpar
        cases hpar
      · simp
    have h2 : (runAgentsParallel outcomes).all (fun r => (pyStrip r.2.1).isEmpty) = false := by
      rcases hall : (runAgentsParallel outcomes).all (fun r => (pyStrip r.2.1).isEmpty) with _ | _
      · rfl
      · exfalso
        have := List.all_eq_true.mp hall _ hpar
        simp only at this
        rw [pyStrip_failurePlaceholder_ne_nil A e] at this
        cases this
    rw [h1, h2]
    rfl
  rw [generateComprehensiveDocumentation] at ht
  simp only [Bool.not_true, Bool.false_eq_true, if_false] at ht
  rw [if_neg (by simp [hemp])] at ht
  by_cases hfin : (assembleFinalDocumentation md5
      ((enhanceCrossReferences (runAgentsParallel outcomes) p).map
        (fun r => (r.1, r.2.1))) p now).tabs.isEmpty
  · rw [if_pos hfin] at ht
    simp only [List.mem_singleton] at ht
    rw [ht] at hsome
    exact absurd hsome (by simp)
  · rw [if_neg hfin] at ht
    obtain ⟨cand, hcand, n, hmk⟩ := assemble_numbered_tab_mem md5 _ p now t ht hsome
    obtain ⟨c0, hc0, _⟩ := orderedCandidates_spec _ cand hcand
    have hvalid : validContent c0 = true := by
      simpa using (List.mem_filter.mp hc0).2
    intro hA
    have hagent : cand.2.2 = A := by
      rw [hmk] at hA
      simpa [mkTab] using hA
    have hmemres : (A, c0) ∈ (enhanceCrossReferences (runAgentsParallel outcomes) p).map
        (fun r => (r.1, r.2.1)) := by
      rw [← hagent]
      exact List.mem_of_mem_filter hc0
    obtain ⟨r, hr, hrEq⟩ := List.mem_map.mp hmemres
    obtain ⟨r0, hr0, hr0Eq⟩ := List.mem_map.mp hr
    have hr0fst : r0.1 = A := by
      have : r.1 = A := congrArg Prod.fst hrEq
      rw [← this, ← hr0Eq]
    obtain ⟨o, ho, hoEq⟩ := List.mem_map.mp hr0
    have hofst : o.1 = A := by
      rw [← hr0fst, ← hoEq]
      cases o.2 <;> rfl
    have hosnd : o.2 = Except.error e := by
      have hmem2 : (A, o.2) ∈ outcomes := by
        have : o = (A, o.2) := by
          rw [← hofst]
        rw [← this]
        exact ho
      exact nodup_keys_unique hnodup hmem2 hmem
    have hc0Eq : c0 = addCrossReferences (failurePlaceholder A e) A p := by
      have ho2 : o = (A, Except.error e) := by
        rw [← hofst, ← hosnd]
      have hr0val : r0 = (A, failurePlaceholder A e, 0) := by
        rw [← hoEq, ho2]
      have hrval : r = (A, addCrossReferences (failurePlaceholder A e) A p, 0) := by
        rw [← hr0Eq, hr0val]
      have := congrArg (fun q => q.2) hrEq
      simp only at this
      rw [← this, hrval]
    rw [hc0Eq] at hvalid
    rw [validContent_enhanced_placeholder A e p] at hvalid
    cases hvalid

/-- Outcomes where the code agent succeeded and the system agent raised. -/
def c10Outcomes : List (Lc × Except Lc (Lc × Nat)) :=
  [(S "Code Architecture Agent", Except.ok (repeatedWordContent (S "a"), 5)),
   (S "System Architecture Agent", Except.error (S "boom"))]

/-- Witness for `c10_failure_placeholder_filtered` on a concrete run: the
placeholder carries the marker, fails validation after cross-referencing,
and the single numbered tab of the result does not belong to the raising
agent. -/
theorem c10_failure_placeholder_filtered_witness :
    pyContains (S "analysis failed")
      (pyLower (failurePlaceholder (S "System Architecture Agent") (S "boom"))) = true ∧
    validContent (addCrossReferences
      (failurePlaceholder (S "System Architecture Agent") (S "boom"))
      (S "System Architecture Agent") emptyProject) = false ∧
    ((generateComprehensiveDocumentation md5Id true c10Outcomes emptyProject
        sampleNow).tabs.headD (mkTab [] [] [] 0)).agent ≠
      S "System Architecture Agent" :=
  ⟨(c10_failure_placeholder_filtered md5Id c10Outcomes emptyProject sampleNow
      (S "System Architecture Agent") (S "boom") (by simp [c10Outcomes]) (by decide)).1,
   (c10_failure_placeholder_filtered md5Id c10Outcomes emptyProject sampleNow
      (S "System Architecture Agent") (S "boom") (by simp [c10Outcomes]) (by decide)).2.1,
   (c10_failure_placeholder_filtered md5Id c10Outcomes emptyProject sampleNow
      (S "System Architecture Agent") (S "boom") (by simp [c10Outcomes]) (by decide)).2.2
     ((generateComprehensiveDocumentation md5Id true c10Outcomes emptyProject
        sampleNow).tabs.headD (mkTab [] [] [] 0)) (by decide) (by decide)⟩

/-- Witness for `c1_generate_never_empty` at a concrete no-client input. -/
theorem c1_generate_never_empty_witness :
    1 ≤ (generateComprehensiveDocumentation md5Id false [] emptyProject sampleNow).tabs.length ∧
    (generateComprehensiveDocumentation md5Id false [] emptyProject sampleNow).content ≠ [] :=
  c1_generate_never_empty md5Id false [] emptyProject sampleNow

end DocPortal
